import Mathlib

/-!
# koios-rest-go-client: client configuration and response decoding

A shallow embedding of `koios.go` (the client runtime of the Koios REST client):
the option setters, the constructor `New`, `readResponseBody` and the response
envelope's `applyError` / `ready`.

Conventions of the embedding

* A Go `string` and a Go `[]byte` are both modelled by a Lean `String` whose
  characters stand for the bytes of the Go value (one character per byte), so
  `string(body)` is the identity.  A nil byte slice is `none`.
* `time.Duration` is an `Int` number of nanoseconds, `uint8` / `uint16` values
  are natural numbers below `256` / `65536`.
* A pointer receiver `c *Client` becomes explicit state passing: an option
  returns the error (if any) together with the client after the call.
* The mutex of the client carries no data and is left out.
-/

namespace Koios

/-! ## Errors -/

/-- Go error values: `new` is `errors.New(text)`, `wrap` is an error which has a
text of its own and unwraps to `inner` (`fmt.Errorf` with `%w`, `url.Error`). -/
inductive GoError where
  | new (text : String)
  | wrap (text : String) (inner : GoError)
  deriving DecidableEq, Repr

namespace GoError

/-- The `Error()` method: the text of the error. -/
def Error : GoError → String
  | new text => text
  | wrap text _ => text

/-- The function `errors.Unwrap`. -/
def Unwrap : GoError → Option GoError
  | new _ => none
  | wrap _ inner => some inner

/-- The function `errors.Is`: `target` occurs in the unwrap chain of the error. -/
def Is : GoError → GoError → Bool
  | new text, target => decide (new text = target)
  | wrap text inner, target => decide (wrap text inner = target) || Is inner target

end GoError

/-! ## Predefined errors and constants of the library (`koios.go`) -/

def ErrURLValuesLenght : GoError :=
  .new "if presenent then only single url.Values should be provided"
def ErrHTTPClientTimeoutSetting : GoError :=
  .new "http.Client.Timeout should never be 0 in production"
def ErrHTTPClientChange : GoError :=
  .new "http.Client can only be set as option to koios.New"
def ErrOriginSet : GoError := .new "origin can only be set as option to koios.New"
def ErrRateLimitRange : GoError := .new "rate limit must be between 1-255 requests per sec"
def ErrResponseIsNotJSON : GoError := .new "go non json response"

def MainnetHost : String := "api.koios.rest"
def DefaultAPIVersion : String := "v0"
def DefaultPort : Nat := 443
def DefaultSchema : String := "https"
def LibraryVersion : String := "v0"
def DefaultRateLimit : Nat := 5
def DefaultOrigin : String := "https://github.com/howijd/koios-rest-go-client"

/-- The constant `time.Second`, in nanoseconds. -/
def Second : Int := 1000000000

/-! ## The standard library's `net/url`, as far as `url.ParseRequestURI` and
`(*url.URL).String` go

`Origin` validates its argument with `url.ParseRequestURI` and stores the
`String()` of the result.  The functions below transcribe `net/url` of the Go
standard library (Go 1.18, the release the library was written for), working on
the list of bytes of a string. -/

namespace url

def isLower (c : Char) : Bool := decide (97 ≤ c.toNat ∧ c.toNat ≤ 122)
def isUpper (c : Char) : Bool := decide (65 ≤ c.toNat ∧ c.toNat ≤ 90)
def isDigit (c : Char) : Bool := decide (48 ≤ c.toNat ∧ c.toNat ≤ 57)

/-- The double quote, the backslash and the single quote as characters. -/
def dquote : Char := Char.ofNat 34
def bslash : Char := Char.ofNat 92
def squote : Char := Char.ofNat 39

/-- The table `lowerhex` / `upperhex`: the hexadecimal digit of a number below 16. -/
def hexDigit (upper : Bool) (n : Nat) : Char :=
  if n < 10 then Char.ofNat (48 + n) else Char.ofNat ((if upper then 55 else 87) + n)

/-- The function `strconv.Quote` (the verb `%q`), one byte at a time.  Bytes from
`0x80` on are copied: Go copies the printable runes they encode. -/
def quoteByte (c : Char) : List Char :=
  if c = dquote ∨ c = bslash then [bslash, c]
  else if 32 ≤ c.toNat ∧ c.toNat < 127 then [c]
  else if c.toNat = 7 then [bslash, 'a']
  else if c.toNat = 8 then [bslash, 'b']
  else if c.toNat = 12 then [bslash, 'f']
  else if c.toNat = 10 then [bslash, 'n']
  else if c.toNat = 13 then [bslash, 'r']
  else if c.toNat = 9 then [bslash, 't']
  else if c.toNat = 11 then [bslash, 'v']
  else if c.toNat < 32 ∨ c.toNat = 127 then
    [bslash, 'x', hexDigit false (c.toNat / 16), hexDigit false (c.toNat % 16)]
  else [c]

def quote (s : List Char) : String :=
  String.mk (dquote :: (s.flatMap quoteByte ++ [dquote]))

/-- The escaping modes of `net/url`. -/
inductive encoding where
  | encodePath | encodePathSegment | encodeHost | encodeZone
  | encodeUserPassword | encodeQueryComponent | encodeFragment
  deriving DecidableEq, Repr

open encoding

def ishex (c : Char) : Bool :=
  isDigit c || decide (97 ≤ c.toNat ∧ c.toNat ≤ 102) || decide (65 ≤ c.toNat ∧ c.toNat ≤ 70)

def unhex (c : Char) : Nat :=
  if isDigit c then c.toNat - 48
  else if 97 ≤ c.toNat ∧ c.toNat ≤ 102 then c.toNat - 97 + 10
  else if 65 ≤ c.toNat ∧ c.toNat ≤ 70 then c.toNat - 65 + 10
  else 0

/-- The function `shouldEscape`: must the byte be escaped in a URL part of this mode. -/
def shouldEscape (c : Char) (mode : encoding) : Bool :=
  if isLower c || isUpper c || isDigit c then false
  else if (mode = encodeHost ∨ mode = encodeZone) ∧
      c ∈ ['!', '$', '&', squote, '(', ')', '*', '+', ',', ';', '=', ':', '[', ']', '<', '>',
        dquote] then false
  else if c ∈ ['-', '_', '.', '~'] then false
  else if c ∈ ['$', '&', '+', ',', '/', ':', ';', '=', '?', '@'] then
    match mode with
    | encodePath => c = '?'
    | encodePathSegment => c = '/' ∨ c = ';' ∨ c = ',' ∨ c = '?'
    | encodeUserPassword => c = '@' ∨ c = '/' ∨ c = '?' ∨ c = ':'
    | encodeQueryComponent => true
    | encodeFragment => false
    | _ => true
  else if mode = encodeFragment ∧ c ∈ ['!', '(', ')', '*'] then false
  else true

def EscapeError (s : List Char) : GoError := .new ("invalid URL escape " ++ quote s)
def InvalidHostError (s : List Char) : GoError :=
  .new ("invalid character " ++ quote s ++ " in host name")

/-- The first loop of `unescape`: the escapes are well formed and allowed in this mode. -/
def unescapeCheck (mode : encoding) : List Char → Option GoError
  | [] => none
  | c :: rest =>
    if c = '%' then
      match rest with
      | a :: b :: rest2 =>
        if !ishex a || !ishex b then some (EscapeError [c, a, b])
        else if mode = encodeHost ∧ unhex a < 8 ∧ [c, a, b] ≠ ['%', '2', '5'] then
          some (EscapeError [c, a, b])
        else if mode = encodeZone ∧ [c, a, b] ≠ ['%', '2', '5'] ∧ unhex a * 16 + unhex b ≠ 32 ∧
            shouldEscape (Char.ofNat (unhex a * 16 + unhex b)) encodeHost then
          some (EscapeError [c, a, b])
        else unescapeCheck mode rest2
      | _ => some (EscapeError (c :: rest))
    else if (mode = encodeHost ∨ mode = encodeZone) ∧ c ≠ '+' ∧ c.toNat < 128 ∧
        shouldEscape c encodeHost then
      some (InvalidHostError [c])
    else unescapeCheck mode rest

/-- The second loop of `unescape`: the escapes are replaced by the bytes they stand for. -/
def unescapeDecode (mode : encoding) : List Char → List Char
  | [] => []
  | c :: rest =>
    if c = '%' then
      match rest with
      | a :: b :: rest2 => Char.ofNat (unhex a * 16 + unhex b) :: unescapeDecode mode rest2
      | _ => c :: rest
    else if c = '+' ∧ mode = encodeQueryComponent then ' ' :: unescapeDecode mode rest
    else c :: unescapeDecode mode rest

def unescape (s : List Char) (mode : encoding) : Except GoError (List Char) :=
  match unescapeCheck mode s with
  | some err => .error err
  | none => .ok (unescapeDecode mode s)

def escape (s : List Char) (mode : encoding) : List Char :=
  s.flatMap fun c =>
    if shouldEscape c mode then
      if c = ' ' ∧ mode = encodeQueryComponent then ['+']
      else ['%', hexDigit true (c.toNat / 16), hexDigit true (c.toNat % 16)]
    else [c]

def validEncoded (s : List Char) (mode : encoding) : Bool :=
  s.all fun c =>
    if c ∈ ['!', '$', '&', squote, '(', ')', '*', '+', ',', ';', '=', ':', '@', '[', ']', '%']
    then true
    else !shouldEscape c mode

/-- The type `url.Userinfo`. -/
structure Userinfo where
  username : String
  password : String
  passwordSet : Bool
  deriving DecidableEq, Repr

/-- The type `url.URL`. -/
structure URL where
  Scheme : String := ""
  Opaque : String := ""
  User : Option Userinfo := none
  Host : String := ""
  Path : String := ""
  RawPath : String := ""
  ForceQuery : Bool := false
  RawQuery : String := ""
  Fragment : String := ""
  RawFragment : String := ""
  deriving DecidableEq, Repr

/-- The call `strings.Cut(s, sep)` for a separator of one byte. -/
def cut (sep : Char) (s : List Char) : List Char × List Char × Bool :=
  match s.span (fun c => c != sep) with
  | (before, []) => (before, [], false)
  | (before, _ :: after) => (before, after, true)

/-- The split of `s` at `strings.LastIndex(s, sep)`, when there is one: `s[:i]` and `s[i+1:]`. -/
def cutLast (sep : Char) (s : List Char) : Option (List Char × List Char) :=
  match s.reverse.span (fun c => c != sep) with
  | (_, []) => none
  | (after, _ :: before) => some (before.reverse, after.reverse)

/-- The call `strings.Index(s, pat)`, `none` for `-1`. -/
def index (pat : List Char) : List Char → Option Nat
  | [] => if pat.isEmpty then some 0 else none
  | c :: rest =>
    if pat.isPrefixOf (c :: rest) then some 0 else (index pat rest).map (· + 1)

def stringContainsCTLByte (s : List Char) : Bool :=
  s.any fun b => decide (b.toNat < 32 ∨ b.toNat = 127)

/-- The loop of `getScheme`; `seen` holds the bytes before the current one, last first. -/
def getSchemeLoop (rawURL : List Char) :
    List Char → List Char → Except GoError (List Char × List Char)
  | _, [] => .ok ([], rawURL)
  | seen, c :: rest =>
    if isLower c || isUpper c then getSchemeLoop rawURL (c :: seen) rest
    else if isDigit c || c = '+' || c = '-' || c = '.' then
      if seen.isEmpty then .ok ([], rawURL) else getSchemeLoop rawURL (c :: seen) rest
    else if c = ':' then
      if seen.isEmpty then .error (.new "missing protocol scheme")
      else .ok (seen.reverse, rest)
    else .ok ([], rawURL)

def getScheme (rawURL : List Char) : Except GoError (List Char × List Char) :=
  getSchemeLoop rawURL [] rawURL

def validOptionalPort : List Char → Bool
  | [] => true
  | c :: rest => c = ':' && rest.all isDigit

def validUserinfo (s : List Char) : Bool :=
  s.all fun r =>
    isUpper r || isLower r || isDigit r ||
      decide (r ∈ ['-', '.', '_', ':', '~', '!', '$', '&', squote, '(', ')', '*', '+', ',', ';',
        '=', '%', '@'])

def parseHost (host : List Char) : Except GoError (List Char) :=
  if host.head? = some '[' then
    match cutLast ']' host with
    | none => .error (.new "missing ']' in host")
    | some (upTo, colonPort) =>
      if !validOptionalPort colonPort then
        .error (.new ("invalid port " ++ quote colonPort ++ " after host"))
      else
        match index ['%', '2', '5'] upTo with
        | some zone => do
          let host1 ← unescape (upTo.take zone) encodeHost
          let host2 ← unescape (upTo.drop zone) encodeZone
          let host3 ← unescape (']' :: colonPort) encodeHost
          pure (host1 ++ host2 ++ host3)
        | none => unescape host encodeHost
  else
    match cutLast ':' host with
    | some (_, port) =>
      if !validOptionalPort (':' :: port) then
        .error (.new ("invalid port " ++ quote (':' :: port) ++ " after host"))
      else unescape host encodeHost
    | none => unescape host encodeHost

def parseAuthority (authority : List Char) : Except GoError (Option Userinfo × String) :=
  match cutLast '@' authority with
  | none => do
    let host ← parseHost authority
    pure (none, String.mk host)
  | some (userinfo, hostPart) => do
    let host ← parseHost hostPart
    if !validUserinfo userinfo then
      throw (.new "net/url: invalid userinfo")
    else if !userinfo.contains ':' then
      let name ← unescape userinfo encodeUserPassword
      pure (some ⟨String.mk name, "", false⟩, String.mk host)
    else
      let username ← unescape (cut ':' userinfo).1 encodeUserPassword
      let password ← unescape (cut ':' userinfo).2.1 encodeUserPassword
      pure (some ⟨String.mk username, String.mk password, true⟩, String.mk host)

/-- The method `setPath`: sets `Path`, and `RawPath` when the default encoding differs. -/
def URL.setPath (u : URL) (p : List Char) : Except GoError URL := do
  let path ← unescape p encodePath
  pure { u with
    Path := String.mk path
    RawPath := if p = escape path encodePath then "" else String.mk p }

def toLower (s : List Char) : List Char :=
  s.map fun c => if isUpper c then Char.ofNat (c.toNat + 32) else c

/-- The function `parse` of `net/url`. -/
def parse (rawURL : List Char) (viaRequest : Bool) : Except GoError URL :=
  if stringContainsCTLByte rawURL then
    .error (.new "net/url: invalid control character in URL")
  else if rawURL = [] ∧ viaRequest then .error (.new "empty url")
  else if rawURL = ['*'] then .ok { Path := "*" }
  else do
    let (scheme, rest0) ← getScheme rawURL
    let forceQuery : Bool := ['?'].isSuffixOf rest0 && rest0.count '?' == 1
    let rest1 : List Char := if forceQuery then rest0.dropLast else (cut '?' rest0).1
    let rawQuery : List Char := if forceQuery then [] else (cut '?' rest0).2.1
    let url : URL :=
      { Scheme := String.mk (toLower scheme), ForceQuery := forceQuery,
        RawQuery := String.mk rawQuery }
    if rest1.head? ≠ some '/' ∧ scheme ≠ [] then
      pure { url with Opaque := String.mk rest1 }
    else if rest1.head? ≠ some '/' ∧ viaRequest then
      throw (.new "invalid URI for request")
    else if rest1.head? ≠ some '/' ∧ (cut '/' rest1).1.contains ':' then
      throw (.new "first path segment in URL cannot contain colon")
    else if (scheme ≠ [] ∨ (!viaRequest ∧ !(['/', '/', '/'].isPrefixOf rest1))) ∧
        ['/', '/'].isPrefixOf rest1 then do
      let authority := (cut '/' (rest1.drop 2)).1
      let rest2 := (rest1.drop 2).drop authority.length
      let (user, host) ← parseAuthority authority
      URL.setPath { url with User := user, Host := host } rest2
    else URL.setPath url rest1

/-- The function `url.ParseRequestURI`: a failure of `parse` is wrapped into a `url.Error`
with operation `parse`. -/
def ParseRequestURI (rawURL : String) : Except GoError URL :=
  match parse rawURL.data true with
  | .ok u => .ok u
  | .error err => .error (.wrap ("parse " ++ quote rawURL.data ++ ": " ++ err.Error) err)

def Userinfo.String (u : Userinfo) : List Char :=
  escape u.username.data encodeUserPassword ++
    (if u.passwordSet then ':' :: escape u.password.data encodeUserPassword else [])

def URL.EscapedPath (u : URL) : List Char :=
  if u.RawPath ≠ "" ∧ validEncoded u.RawPath.data encodePath ∧
      (unescape u.RawPath.data encodePath).toOption = some u.Path.data then u.RawPath.data
  else if u.Path = "*" then ['*']
  else escape u.Path.data encodePath

def URL.EscapedFragment (u : URL) : List Char :=
  if u.RawFragment ≠ "" ∧ validEncoded u.RawFragment.data encodeFragment ∧
      (unescape u.RawFragment.data encodeFragment).toOption = some u.Fragment.data then u.RawFragment.data
  else escape u.Fragment.data encodeFragment

/-- The part of `String()` that is written when `Opaque` is empty. -/
def URL.hierPart (u : URL) : List Char :=
  let buf0 : List Char :=
    if u.Scheme ≠ "" ∨ u.Host ≠ "" ∨ u.User ≠ none then
      (if u.Host ≠ "" ∨ u.Path ≠ "" ∨ u.User ≠ none then ['/', '/'] else []) ++
      (match u.User with
        | some ui => ui.String ++ ['@']
        | none => []) ++
      (if u.Host ≠ "" then escape u.Host.data encodeHost else [])
    else []
  let path := u.EscapedPath
  let buf1 : List Char :=
    if path ≠ [] ∧ path.head? ≠ some '/' ∧ u.Host ≠ "" then buf0 ++ ['/'] else buf0
  let buf2 : List Char :=
    if u.Scheme = "" ∧ buf1 = [] ∧ (cut '/' path).1.contains ':' then ['.', '/'] else buf1
  buf2 ++ path

/-- The method `(*URL).String`. -/
def URL.String (u : URL) : String :=
  String.mk (
    (if u.Scheme ≠ "" then u.Scheme.data ++ [':'] else []) ++
    (if u.Opaque ≠ "" then u.Opaque.data else u.hierPart) ++
    (if u.ForceQuery ∨ u.RawQuery ≠ "" then '?' :: u.RawQuery.data else []) ++
    (if u.Fragment ≠ "" then '#' :: u.EscapedFragment else []))

end url

/-! ## The standard library's `strings`, `net/http` and `time`, as far as they are used -/

namespace strings

/-- The search of `strings.Contains` on lists of bytes. -/
def containsBytes (substr : List Char) : List Char → Bool
  | [] => substr.isEmpty
  | c :: rest => substr.isPrefixOf (c :: rest) || containsBytes substr rest

/-- The function `strings.Contains`: `substr` is within `s`. -/
def Contains (s substr : String) : Bool := containsBytes substr.data s.data

end strings

namespace http

def validHeaderFieldByte (c : Char) : Bool :=
  url.isLower c || url.isUpper c || url.isDigit c ||
    decide (c.toNat ∈ [33, 35, 36, 37, 38, 39, 42, 43, 45, 46, 94, 95, 96, 124, 126])

/-- The loop of `canonicalMIMEHeaderKey`: upper case at the start and after each dash,
lower case elsewhere. -/
def canonicalLoop : Bool → List Char → List Char
  | _, [] => []
  | upper, c :: rest =>
    let c1 : Char :=
      if upper ∧ url.isLower c then Char.ofNat (c.toNat - 32)
      else if !upper ∧ url.isUpper c then Char.ofNat (c.toNat + 32)
      else c
    c1 :: canonicalLoop (c1 = '-') rest

/-- The function `textproto.CanonicalMIMEHeaderKey`: a key with a byte that is not a
header field byte is returned unchanged. -/
def CanonicalMIMEHeaderKey (s : String) : String :=
  if s.data.all validHeaderFieldByte then String.mk (canonicalLoop true s.data) else s

/-- The type `http.Header`, a map from keys to lists of values. -/
abbrev Header := List (String × List String)

/-- The method `Header.Get`: the first value of the canonical form of the key, or `""`. -/
def Header.Get (h : Header) (key : String) : String :=
  match h.lookup (CanonicalMIMEHeaderKey key) with
  | some (v :: _) => v
  | _ => ""

/-- The method `Header.Set`: the canonical form of the key gets the single value. -/
def Header.Set (h : Header) (key value : String) : Header :=
  (CanonicalMIMEHeaderKey key, [value]) ::
    h.filter (fun kv => kv.1 != CanonicalMIMEHeaderKey key)

/-- A value of the interface `http.RoundTripper`, by identity. -/
inductive RoundTripper where
  | DefaultTransport
  | custom (id : Nat)
  deriving DecidableEq, Repr

/-- The type `http.Client`; `CheckRedirect` and `Jar` are held by identity. -/
structure Client where
  Transport : Option RoundTripper := none
  CheckRedirect : Option Nat := none
  Jar : Option Nat := none
  Timeout : Int := 0
  deriving DecidableEq, Repr

/-- The body of a response, by what `ioutil.ReadAll` gets out of it. -/
structure Body where
  data : String
  err : Option GoError
  deriving DecidableEq, Repr

/-- The type `http.Request`, as far as it is read. -/
structure Request where
  Method : String
  deriving DecidableEq, Repr

/-- The type `http.Response`, as far as it is read. -/
structure Response where
  Status : String
  StatusCode : Int
  Header : Header
  Body : Body
  Request : Request
  deriving DecidableEq, Repr

def StatusOK : Int := 200

end http

/-- The function `ioutil.ReadAll`: the bytes read and the error, if any. -/
def ReadAll (b : http.Body) : String × Option GoError := (b.data, b.err)

namespace time

/-- The loop of `fmtFrac`: the last `prec` decimal digits of `v`, without trailing zeros. -/
def fmtFracLoop : Nat → Nat → Bool → List Char → List Char × Nat × Bool
  | 0, v, print, buf => (buf, v, print)
  | prec + 1, v, print, buf =>
    let print1 := print || v % 10 != 0
    fmtFracLoop prec (v / 10) print1 (if print1 then Char.ofNat (48 + v % 10) :: buf else buf)

def fmtFrac (buf : List Char) (v prec : Nat) : List Char × Nat :=
  match fmtFracLoop prec v false buf with
  | (buf1, v1, print) => (if print then '.' :: buf1 else buf1, v1)

def fmtInt (buf : List Char) (v : Nat) : List Char := (Nat.repr v).data ++ buf

/-- The method `Duration.String` (what `fmt.Sprint` prints for a duration). -/
def Duration.String (d : Int) : String :=
  let u := d.natAbs
  let sign : List Char := if d < 0 then ['-'] else []
  if u = 0 then "0s"
  else if u < 1000000000 then
    let unit : List Char :=
      if u < 1000 then ['n', 's']
      else if u < 1000000 then [Char.ofNat 194, Char.ofNat 181, 's']
      else ['m', 's']
    let prec : Nat := if u < 1000 then 0 else if u < 1000000 then 3 else 6
    let (buf, v) := fmtFrac unit u prec
    String.mk (sign ++ fmtInt buf v)
  else
    let (buf, secs) := fmtFrac ['s'] u 9
    let buf1 := fmtInt buf (secs % 60)
    let mins := secs / 60
    if mins = 0 then String.mk (sign ++ buf1)
    else
      let buf2 := fmtInt ('m' :: buf1) (mins % 60)
      let hours := mins / 60
      if hours = 0 then String.mk (sign ++ buf2)
      else String.mk (sign ++ fmtInt ('h' :: buf2) hours)

/-- The difference of two readings of the clock as a `Duration`: `Time.Sub` saturates
at the least and the greatest 64-bit value. -/
def Sub (t u : Int) : Int :=
  if t - u < -(2 ^ 63) then -(2 ^ 63) else if 2 ^ 63 - 1 < t - u then 2 ^ 63 - 1 else t - u

end time

/-! ## The client and its options (`koios.go`) -/

/-- The type `Client`; the mutex is left out. -/
structure Client where
  host : String := ""
  version : String := ""
  port : Nat := 0
  schema : String := ""
  origin : String := ""
  url : Option url.URL := none
  client : Option http.Client := none
  commonHeaders : http.Header := []
  reqInterval : Int := 0
  lastRequest : Int := 0
  totalReq : Nat := 0
  reqStatsEnabled : Bool := false
  deriving DecidableEq, Repr

/-- The type `Option` of the library, `func(*Client) error`: the error returned, if any,
and the client after the call. -/
abbrev ClientOption := Client → Option GoError × Client

/-- Modelled from the spec: `updateBaseURL` is not among the sources.  The spec has the
base URL recomputed to `schema://host:port/api/version` after any mutation of host,
version, port or schema, and has it an absolute URL; its error is what the four setters
return.  A text that does not parse leaves the stored URL as it was. -/
def Client.updateBaseURL (c : Client) : Option GoError × Client :=
  match url.ParseRequestURI
      (c.schema ++ "://" ++ c.host ++ ":" ++ Nat.repr c.port ++ "/api/" ++ c.version) with
  | .ok u => (none, { c with url := some u })
  | .error err => (some err, c)

def Host (host : String) : ClientOption := fun c =>
  Client.updateBaseURL { c with host := host }

def APIVersion (version : String) : ClientOption := fun c =>
  Client.updateBaseURL { c with version := version }

def Port (port : Nat) : ClientOption := fun c =>
  Client.updateBaseURL { c with port := port }

def Schema (schema : String) : ClientOption := fun c =>
  Client.updateBaseURL { c with schema := schema }

/-- The option `HTTPClient`; the argument `none` is the nil pointer. -/
def HTTPClient (client : Option http.Client) : ClientOption := fun c =>
  if c.client ≠ none then (some ErrHTTPClientChange, c)
  else
    let client1 : http.Client :=
      match client with
      | none => { Timeout := Second * 60 }
      | some cl => cl
    if client1.Timeout = 0 then (some ErrHTTPClientTimeoutSetting, c)
    else
      (none, { c with
        client := some (
          if client1.Transport = none then
            { client1 with Transport := some http.RoundTripper.DefaultTransport }
          else client1) })

/-- The option `RateLimit`; `reqps` is a `uint8`. -/
def RateLimit (reqps : Nat) : ClientOption := fun c =>
  if reqps = 0 then (some ErrRateLimitRange, c)
  else (none, { c with reqInterval := Int.tdiv Second (reqps : Int) })

def Origin (origin : String) : ClientOption := fun c =>
  match url.ParseRequestURI origin with
  | .error err => (some err, c)
  | .ok u => (none, { c with origin := u.String })

def CollectRequestsStats (enabled : Bool) : ClientOption := fun c =>
  (none, { c with reqStatsEnabled := enabled })

/-- What `New` reads from the platform: `runtime.GOOS`, `runtime.GOARCH`, and the title
case of `cases.Title(language.English)`. -/
structure Runtime where
  GOOS : String
  GOARCH : String
  Title : String → String

/-- The loop of `New` over the options given: the first error ends it. -/
def applyOptions : List ClientOption → Client → Except GoError Client
  | [], c => .ok c
  | setOpt :: rest, c =>
    match setOpt c with
    | (some err, _) => .error err
    | (none, c1) => applyOptions rest c1

/-- The client of `New` before the options given are applied: the defaults, the base
URL, the default rate limit and the common headers. -/
def newDefaults (rt : Runtime) : Client :=
  let c0 : Client :=
    { host := MainnetHost, version := DefaultAPIVersion, port := DefaultPort,
      schema := DefaultSchema, commonHeaders := [] }
  let c1 := (Client.updateBaseURL c0).2
  let c2 := (RateLimit DefaultRateLimit c1).2
  { c2 with
    commonHeaders :=
      ((c2.commonHeaders.Set "Accept" "application/json").Set
        "Accept-Encoding" "gzip, deflate").Set "User-Agent"
        ("go-koios/" ++ LibraryVersion ++ " (" ++ rt.Title rt.GOOS ++ " " ++ rt.GOARCH ++ ") " ++
          rt.GOOS ++ "/" ++ rt.GOARCH ++ " https://github.com/howijd/go-koios") }

/-- The constructor `New`: the options given are applied to the defaults, then the
default origin is set, then the default HTTP client when none is installed. -/
def New (rt : Runtime) (opts : List ClientOption) : Except GoError Client :=
  match applyOptions opts (newDefaults rt) with
  | .error err => .error err
  | .ok c4 =>
    let c5 := (Origin DefaultOrigin c4).2
    if c5.client = none then
      match HTTPClient none c5 with
      | (some err, _) => .error err
      | (none, c6) => .ok c6
    else .ok c5

/-- Calls of options one after the other on a client, whatever each returns. -/
def callEach : List ClientOption → Client → Client
  | [], c => c
  | setOpt :: rest, c => callEach rest (setOpt c).2

/-- The options the library provides, by name and argument. -/
inductive LibOption where
  | Host (host : String)
  | APIVersion (version : String)
  | Port (port : Nat)
  | Schema (schema : String)
  | HTTPClient (client : Option http.Client)
  | RateLimit (reqps : Nat)
  | Origin (origin : String)
  | CollectRequestsStats (enabled : Bool)
  deriving DecidableEq, Repr

/-- The option a name and argument stand for. -/
def LibOption.toOption : LibOption → ClientOption
  | .Host host => Koios.Host host
  | .APIVersion version => Koios.APIVersion version
  | .Port port => Koios.Port port
  | .Schema schema => Koios.Schema schema
  | .HTTPClient client => Koios.HTTPClient client
  | .RateLimit reqps => Koios.RateLimit reqps
  | .Origin origin => Koios.Origin origin
  | .CollectRequestsStats enabled => Koios.CollectRequestsStats enabled

/-- The arguments are values of their Go types: a port is a `uint16`, a rate a `uint8`. -/
def LibOption.WellTyped : LibOption → Bool
  | .Port port => decide (port < 65536)
  | .RateLimit reqps => decide (reqps < 256)
  | _ => true

def LibOption.isHTTPClient : LibOption → Bool
  | .HTTPClient _ => true
  | _ => false

/-! ## The response envelope (`koios.go`) -/

/-- The type `ResponseError`. -/
structure ResponseError where
  Hint : String := ""
  Details : String := ""
  Code : String := ""
  Message : String := ""
  deriving DecidableEq, Repr

/-- The type `RequestStats`; times are nanoseconds of the clock. -/
structure RequestStats where
  ReqStartedAt : Int := 0
  DNSLookupDur : Int := 0
  TLSHSDur : Int := 0
  ESTCXNDur : Int := 0
  TTFB : Int := 0
  ReqDur : Int := 0
  ReqDurStr : String := ""
  deriving DecidableEq, Repr

/-- The type `Response`. -/
structure Response where
  RequestURL : String := ""
  RequestMethod : String := ""
  StatusCode : Int := 0
  Status : String := ""
  Date : String := ""
  ContentLocation : String := ""
  ContentRange : String := ""
  Error : Option ResponseError := none
  Stats : Option RequestStats := none
  deriving DecidableEq, Repr

/-- What the envelope takes from outside the library: the reading of the clock at the
call (`time.Since`), and `json.Unmarshal` into a `*ResponseError`, which gets the bytes
and the record to fill and gives the record as filled with the error, if any. -/
structure Env where
  now : Int
  unmarshalResponseError : Option String → ResponseError → ResponseError × Option GoError

/-- The function `readResponseBody`: the bytes (`none` for nil) and the error. -/
def readResponseBody (rsp : http.Response) : Option String × Option GoError :=
  match ReadAll rsp.Body with
  | (_, some err) => (none, some err)
  | (body, none) =>
    if !strings.Contains (rsp.Header.Get "Content-Type") "json" then
      (none, some (.wrap (ErrResponseIsNotJSON.Error ++ ": " ++ body) ErrResponseIsNotJSON))
    else (some body, none)

/-- The method `ready`. -/
def Response.ready (env : Env) (r : Response) : Response :=
  match r.Stats with
  | none => r
  | some stats =>
    { r with
      Stats := some { stats with
        ReqDur := time.Sub env.now stats.ReqStartedAt
        ReqDurStr := time.Duration.String (time.Sub env.now stats.ReqStartedAt) } }

/-- The method `applyError`. -/
def Response.applyError (env : Env) (r : Response) (body : Option String)
    (err : Option GoError) : Response :=
  let decoded : ResponseError := (env.unmarshalResponseError body {}).1
  let rerr : ResponseError :=
    match err with
    | some e => if decoded.Message.length = 0 then { decoded with Message := e.Error } else decoded
    | none => decoded
  Response.ready env { r with Error := some rerr }

/-- The method `applyRsp`. -/
def Response.applyRsp (r : Response) (rsp : http.Response) : Response :=
  { r with
    StatusCode := rsp.StatusCode
    RequestMethod := rsp.Request.Method
    Status := rsp.Status
    Date := rsp.Header.Get "date"
    ContentRange := rsp.Header.Get "content-range"
    ContentLocation := rsp.Header.Get "content-location" }

/-! ## The asset endpoints (`asset.go`) -/

namespace url

/-- The type `url.Values`, a map from keys to lists of values. -/
abbrev Values := List (String × List String)

/-- The method `Values.Set`: the key gets the single value. -/
def Values.Set (v : Values) (key value : String) : Values :=
  (key, [value]) :: v.filter (fun kv => kv.1 != key)

/-- The keys and their values in the order of the keys. -/
def Values.insertSorted (kv : String × List String) : Values → Values
  | [] => [kv]
  | x :: rest => if kv.1 < x.1 then kv :: x :: rest else x :: Values.insertSorted kv rest

/-- The function `url.QueryEscape`. -/
def QueryEscape (s : String) : String := String.mk (escape s.data encoding.encodeQueryComponent)

/-- The method `Values.Encode`: `key=value` for the keys in order, ampersands between. -/
def Values.Encode (v : Values) : String :=
  "&".intercalate
    ((v.foldr Values.insertSorted []).flatMap fun kv =>
      kv.2.map fun value => QueryEscape kv.1 ++ "=" ++ QueryEscape value)

end url

abbrev PolicyID := String
abbrev AssetName := String
abbrev TxHash := String
abbrev Address := String

/-- The type `Lovelace`, a `decimal.Decimal`: a coefficient and a power of ten. -/
structure Lovelace where
  value : Int := 0
  exp : Int := 0
  deriving DecidableEq, Repr

/-- Modelled from the spec: the type `TxInfoMetadata` is not among the sources.  The spec
takes the domain value types as opaque parameters; a value is held as the JSON text it
was decoded from. -/
structure TxInfoMetadata where
  raw : String
  deriving DecidableEq, Repr

/-- The type `TokenRegistryMetadata`. -/
structure TokenRegistryMetadata where
  Decimals : Int := 0
  Description : String := ""
  Logo : String := ""
  Name : String := ""
  Ticker : String := ""
  URL : String := ""
  deriving DecidableEq, Repr

/-- The type `AssetSummary`. -/
structure AssetSummary where
  AssetName : String := ""
  PolicyID : PolicyID := ""
  StakedWallets : Int := 0
  TotalTransactions : Int := 0
  UnstakedAddresses : Int := 0
  deriving DecidableEq, Repr

/-- The type `AssetInfo`. -/
structure AssetInfo where
  Name : String := ""
  NameASCII : String := ""
  Fingerprint : String := ""
  MintingTxMetadata : Option TxInfoMetadata := none
  TokenRegistryMetadata : Option TokenRegistryMetadata := none
  PolicyID : PolicyID := ""
  TotalSupply : Lovelace := {}
  CreationTime : String := ""
  deriving DecidableEq, Repr

/-- The type `AssetTxs`. -/
structure AssetTxs where
  AssetName : String := ""
  PolicyID : PolicyID := ""
  TxHashes : Option (List TxHash) := none
  deriving DecidableEq, Repr

/-- The type `AssetListItem`; `HEX` and `ASCII` are the fields of its `AssetNames`. -/
structure AssetListItem where
  PolicyID : PolicyID := ""
  HEX : Option (List String) := none
  ASCII : Option (List String) := none
  deriving DecidableEq, Repr

/-- The type `AssetHolder`. -/
structure AssetHolder where
  PaymentAddress : Address := ""
  Quantity : Lovelace := {}
  deriving DecidableEq, Repr

/-- A response type of an endpoint: the envelope `Response`, embedded, and the payload
`Data`. -/
structure TypedResponse (D : Type) extends Response where
  Data : D
  deriving DecidableEq, Repr

/-- The types of the responses: a slice is a list or nil, a pointer a value or nil. -/
abbrev AssetListResponse := TypedResponse (Option (List AssetListItem))
abbrev AssetAddressListResponse := TypedResponse (Option (List AssetHolder))
abbrev AssetInfoResponse := TypedResponse (Option AssetInfo)
abbrev AssetSummaryResponse := TypedResponse (Option AssetSummary)
abbrev AssetTxsResponse := TypedResponse (Option AssetTxs)

/-- The function `json.Unmarshal` into a pointer to a `T`: it gets the bytes and the value
to fill, and gives the value as filled with the error, if any. -/
abbrev Unmarshal (T : Type) := Option String → T → T × Option GoError

/-- What a call of `request` gives: the envelope as the call leaves it, and the raw
response or the error. -/
abbrev Outcome := Response × Except GoError http.Response

/-- The method `request` of a client, as a wrapper calls it: it gets the envelope, the
method, the path, the body, the query and the headers (the last three may be nil). -/
abbrev RequestFn :=
  Response → String → String → Option String → Option url.Values → Option http.Header → Outcome

/-- What the network and the clock give to one request: the time it starts at, the
durations the trace stamps, and the raw response or the error of the transport. -/
structure Exchange where
  startedAt : Int
  DNSLookupDur : Int := 0
  TLSHSDur : Int := 0
  ESTCXNDur : Int := 0
  TTFB : Int := 0
  result : Except GoError http.Response

/-- Modelled from the spec: `request` is not among the sources.  The spec has it build
the URL as the base URL followed by the path and the encoded query, store URL and method
in the envelope before the call, allocate a stats record stamped with the start time and
the phases when stats are enabled and none otherwise, perform the call, and return the raw
response or the error of the transport without reading the status code; on a response the
envelope gets status and headers by `applyRsp`.  The wait of the rate limiter and its
watermark are state of the client, not part of what the wrapper gets back. -/
def Client.request (c : Client) (net : Exchange) : RequestFn :=
  fun res m p _ query _ =>
    let requrl : String :=
      (match c.url with
        | some u => u.String
        | none => "") ++ p ++
      (match query with
        | some q => if q.isEmpty then "" else "?" ++ q.Encode
        | none => "")
    let r1 : Response := { res with RequestURL := requrl, RequestMethod := m }
    let r2 : Response :=
      if c.reqStatsEnabled then
        { r1 with
          Stats := some
            { ReqStartedAt := net.startedAt, DNSLookupDur := net.DNSLookupDur,
              TLSHSDur := net.TLSHSDur, ESTCXNDur := net.ESTCXNDur, TTFB := net.TTFB } }
      else r1
    match net.result with
    | .error err => (r2, .error err)
    | .ok rsp => (r2.applyRsp rsp, .ok rsp)

/-- The method `GetAssetList`.  After a decode without error the variable `err` is nil:
that is what the status test passes on and what the bare `return` returns. -/
def GetAssetList (env : Env) (unmarshal : Unmarshal (Option (List AssetListItem)))
    (request : RequestFn) : AssetListResponse × Option GoError :=
  let res : AssetListResponse := { Data := none }
  match request res.toResponse "GET" "/asset_list" none none none with
  | (r1, .error err) => ({ res with toResponse := r1.applyError env none (some err) }, some err)
  | (r1, .ok rsp) =>
    match readResponseBody rsp with
    | (body, some err) =>
      ({ res with toResponse := r1.applyError env body (some err) }, some err)
    | (body, none) =>
      match unmarshal body res.Data with
      | (data, some err) =>
        ({ toResponse := r1.applyError env body (some err), Data := data }, some err)
      | (data, none) =>
        if rsp.StatusCode ≠ http.StatusOK then
          ({ toResponse := r1.applyError env body none, Data := data }, none)
        else ({ toResponse := r1, Data := data }, none)

/-- The query of the wrappers by policy and name. -/
def assetParams (policy : PolicyID) (name : AssetName) : url.Values :=
  (url.Values.Set (url.Values.Set [] "_asset_policy" policy) "_asset_name" name)

/-- The method `GetAssetAddressList`. -/
def GetAssetAddressList (env : Env) (unmarshal : Unmarshal (Option (List AssetHolder)))
    (request : RequestFn) (policy : PolicyID) (name : AssetName) :
    AssetAddressListResponse × Option GoError :=
  let res : AssetAddressListResponse := { Data := none }
  match request res.toResponse "GET" "/asset_address_list" none
      (some (assetParams policy name)) none with
  | (r1, .error err) => ({ res with toResponse := r1.applyError env none (some err) }, some err)
  | (r1, .ok rsp) =>
    match readResponseBody rsp with
    | (body, some err) =>
      ({ res with toResponse := r1.applyError env body (some err) }, some err)
    | (body, none) =>
      match unmarshal body res.Data with
      | (data, some err) =>
        ({ toResponse := r1.applyError env body (some err), Data := data }, some err)
      | (data, none) =>
        if rsp.StatusCode ≠ http.StatusOK then
          ({ toResponse := r1.applyError env body none, Data := data }, none)
        else ({ toResponse := r1, Data := data }, none)

/-- The method `GetAssetInfo`. -/
def GetAssetInfo (env : Env) (unmarshal : Unmarshal (Option (List AssetInfo)))
    (request : RequestFn) (policy : PolicyID) (name : AssetName) :
    AssetInfoResponse × Option GoError :=
  let res : AssetInfoResponse := { Data := none }
  match request res.toResponse "GET" "/asset_info" none (some (assetParams policy name)) none with
  | (r1, .error err) => ({ res with toResponse := r1.applyError env none (some err) }, some err)
  | (r1, .ok rsp) =>
    match readResponseBody rsp with
    | (body, some err) =>
      ({ res with toResponse := r1.applyError env body (some err) }, some err)
    | (body, none) =>
      match unmarshal body (some []) with
      | (_, some err) =>
        ({ res with toResponse := r1.applyError env body (some err) }, some err)
      | (info, none) =>
        if rsp.StatusCode ≠ http.StatusOK then
          ({ res with toResponse := r1.applyError env body none }, none)
        else
          ({ toResponse := r1.ready env,
             Data := match info with
               | some [item] => some item
               | _ => none }, none)

/-- The method `GetAssetSummary`. -/
def GetAssetSummary (env : Env) (unmarshal : Unmarshal (Option (List AssetSummary)))
    (request : RequestFn) (policy : PolicyID) (name : AssetName) :
    AssetSummaryResponse × Option GoError :=
  let res : AssetSummaryResponse := { Data := none }
  match request res.toResponse "GET" "/asset_summary" none
      (some (assetParams policy name)) none with
  | (r1, .error err) => ({ res with toResponse := r1.applyError env none (some err) }, some err)
  | (r1, .ok rsp) =>
    match readResponseBody rsp with
    | (body, some err) =>
      ({ res with toResponse := r1.applyError env body (some err) }, some err)
    | (body, none) =>
      match unmarshal body (some []) with
      | (_, some err) =>
        ({ res with toResponse := r1.applyError env body (some err) }, some err)
      | (summary, none) =>
        if rsp.StatusCode ≠ http.StatusOK then
          ({ res with toResponse := r1.applyError env body none }, none)
        else
          ({ toResponse := r1.ready env,
             Data := match summary with
               | some [item] => some item
               | _ => none }, none)

/-- The method `GetAssetTxs`. -/
def GetAssetTxs (env : Env) (unmarshal : Unmarshal (Option (List AssetTxs)))
    (request : RequestFn) (policy : PolicyID) (name : AssetName) :
    AssetTxsResponse × Option GoError :=
  let res : AssetTxsResponse := { Data := none }
  match request res.toResponse "GET" "/asset_txs" none (some (assetParams policy name)) none with
  | (r1, .error err) => ({ res with toResponse := r1.applyError env none (some err) }, some err)
  | (r1, .ok rsp) =>
    match readResponseBody rsp with
    | (body, some err) =>
      ({ res with toResponse := r1.applyError env body (some err) }, some err)
    | (body, none) =>
      match unmarshal body (some []) with
      | (_, some err) =>
        ({ res with toResponse := r1.applyError env body (some err) }, some err)
      | (atxs, none) =>
        if rsp.StatusCode ≠ http.StatusOK then
          ({ res with toResponse := r1.applyError env body none }, none)
        else
          ({ toResponse := r1.ready env,
             Data := match atxs with
               | some [item] => some item
               | _ => none }, none)

/-- A `request` that gives the outcome `o`, whatever it is asked. -/
def answer (o : Outcome) : RequestFn := fun _ _ _ _ _ _ => o

/-- The part of `GetAssetList` and of `GetAssetAddressList` after the call of `request`,
which gave `o`. -/
def listDecode {α : Type} (env : Env) (unmarshal : Unmarshal (Option (List α))) (o : Outcome) :
    TypedResponse (Option (List α)) × Option GoError :=
  match o with
  | (r1, .error err) => ({ toResponse := r1.applyError env none (some err), Data := none }, some err)
  | (r1, .ok rsp) =>
    match readResponseBody rsp with
    | (body, some err) =>
      ({ toResponse := r1.applyError env body (some err), Data := none }, some err)
    | (body, none) =>
      match unmarshal body none with
      | (data, some err) =>
        ({ toResponse := r1.applyError env body (some err), Data := data }, some err)
      | (data, none) =>
        if rsp.StatusCode ≠ http.StatusOK then
          ({ toResponse := r1.applyError env body none, Data := data }, none)
        else ({ toResponse := r1, Data := data }, none)

/-- The part of `GetAssetInfo`, `GetAssetSummary` and `GetAssetTxs` after the call of
`request`, which gave `o`. -/
def byKeyDecode {α : Type} (env : Env) (unmarshal : Unmarshal (Option (List α))) (o : Outcome) :
    TypedResponse (Option α) × Option GoError :=
  match o with
  | (r1, .error err) => ({ toResponse := r1.applyError env none (some err), Data := none }, some err)
  | (r1, .ok rsp) =>
    match readResponseBody rsp with
    | (body, some err) =>
      ({ toResponse := r1.applyError env body (some err), Data := none }, some err)
    | (body, none) =>
      match unmarshal body (some []) with
      | (_, some err) =>
        ({ toResponse := r1.applyError env body (some err), Data := none }, some err)
      | (items, none) =>
        if rsp.StatusCode ≠ http.StatusOK then
          ({ toResponse := r1.applyError env body none, Data := none }, none)
        else
          ({ toResponse := r1.ready env,
             Data := match items with
               | some [item] => some item
               | _ => none }, none)

/-! ## The command line (`cmd/koios-rest/main.go`) -/

namespace cli

/-- The values of the global flags, as `c.String` and `c.Uint` give them; a `uint` is a
natural number below `2 ^ 64`. -/
structure Flags where
  port : Nat
  host : String
  apiVersion : String
  schema : String
  origin : String
  rateLimit : Nat
  ugly : Bool

/-- The function `globalFlags`: the values of the flags when none is given. -/
def globalFlags : Flags :=
  { port := DefaultPort, host := MainnetHost, apiVersion := DefaultAPIVersion,
    schema := DefaultSchema, origin := DefaultOrigin, rateLimit := DefaultRateLimit,
    ugly := false }

/-- The conversions `uint8(v)` and `uint16(v)` of a `uint`. -/
def uint8 (v : Nat) : Nat := v % 2 ^ 8
def uint16 (v : Nat) : Nat := v % 2 ^ 16

/-- The function `handleErr` on what an option returns: an error ends the program
(`log.Fatal`), no error lets it go on with the client. -/
def handleErr (r : Option GoError × Client) : Except GoError Client :=
  match r with
  | (some err, _) => .error err
  | (none, api) => .ok api

/-- The hook `Before` of the application. -/
def Before (flags : Flags) (api : Client) : Except GoError Client := do
  let api1 ← handleErr (Host flags.host api)
  let api2 ← handleErr (APIVersion flags.apiVersion api1)
  let api3 ← handleErr (Port (uint16 flags.port) api2)
  let api4 ← handleErr (Schema flags.schema api3)
  let api5 ← handleErr (RateLimit (uint8 flags.rateLimit) api4)
  handleErr (Origin flags.origin api5)

end cli

/-! ## Notions of the specification -/

/-- The notion of the specification for an origin: the text parses as an absolute URL,
one with a scheme and a host. -/
def IsAbsoluteURL (s : String) : Bool :=
  match url.ParseRequestURI s with
  | .ok u => decide (u.Scheme ≠ "" ∧ u.Host ≠ "")
  | .error _ => false

/-- A platform for the examples. -/
def linuxAmd64 : Runtime := { GOOS := "linux", GOARCH := "amd64", Title := fun _ => "Linux" }

/-- The client that `New()` returns on that platform. -/
def stockClient : Client :=
  { host := "api.koios.rest", version := "v0", port := 443, schema := "https",
    origin := "https://github.com/howijd/koios-rest-go-client",
    url := some { Scheme := "https", Host := "api.koios.rest:443", Path := "/api/v0" },
    client := some { Transport := some http.RoundTripper.DefaultTransport,
                     Timeout := 60000000000 },
    commonHeaders :=
      [("User-Agent", ["go-koios/v0 (Linux amd64) linux/amd64 https://github.com/howijd/go-koios"]),
       ("Accept-Encoding", ["gzip, deflate"]),
       ("Accept", ["application/json"])],
    reqInterval := 200000000 }

/-- A response `404` with an HTML body. -/
def htmlNotFound : http.Response :=
  { Status := "404 Not Found", StatusCode := 404,
    Header := [("Content-Type", ["text/html; charset=utf-8"])],
    Body := { data := "<html>not found</html>", err := none },
    Request := { Method := "GET" } }

/-- The call leaves by the exit of success: a response was received, its body was read
with a JSON content type and decoded into `target` without error, and its status is 200. -/
def succeeds {T : Type} (unmarshal : Unmarshal T) (target : T) (o : Outcome) : Bool :=
  match o.2 with
  | .error _ => false
  | .ok rsp =>
    (readResponseBody rsp).2.isNone && (unmarshal (readResponseBody rsp).1 target).2.isNone &&
      decide (rsp.StatusCode = http.StatusOK)

/-- The value the decoder leaves in `target`, when the body of a response was read;
`target` itself otherwise. -/
def decoded {T : Type} (unmarshal : Unmarshal T) (target : T) (o : Outcome) : T :=
  match o.2 with
  | .error _ => target
  | .ok rsp =>
    match readResponseBody rsp with
    | (_, some _) => target
    | (body, none) => (unmarshal body target).1

/-- The call reached the decoder of the payload: a response was received and its body
was read with a JSON content type. -/
def decoderReached (o : Outcome) : Bool :=
  match o.2 with
  | .error _ => false
  | .ok rsp => (readResponseBody rsp).2.isNone

/-- A response with a JSON content type. -/
def jsonResponse (code : Int) (status body : String) : http.Response :=
  { Status := status, StatusCode := code,
    Header := [("Content-Type", ["application/json; charset=utf-8"])],
    Body := { data := body, err := none },
    Request := { Method := "GET" } }

/-- The body of an error of the service. -/
def notFoundBody : String := "\x7b\"message\":\"not found\"\x7d"

/-- A decoder for the examples: the empty array gives the empty list, `null` gives nil,
and anything else is refused with the target left as it was. -/
def listUnmarshal {α : Type} : Unmarshal (Option (List α)) := fun body target =>
  if body = some "[]" then (some [], none)
  else if body = some "null" then (none, none)
  else (target, some (.new "json: cannot unmarshal object into Go value"))

/-- An environment for the examples: the clock reads `5000`, and the decoder of
`ResponseError` knows one body, that of `notFoundBody`. -/
def exampleEnv : Env :=
  { now := 5000,
    unmarshalResponseError := fun body target =>
      if body = some notFoundBody then ({ target with Message := "not found" }, none)
      else (target, some (.new "json: cannot unmarshal into Go value of type koios.ResponseError")) }

/-- The client of `New(CollectRequestsStats(true))`. -/
def statsClient : Client := { stockClient with reqStatsEnabled := true }

/-- An exchange that starts at `1000` and gives the response `rsp`. -/
def exchange (rsp : http.Response) : Exchange := { startedAt := 1000, result := .ok rsp }

/-- The returned error is nil although the envelope carries an error. -/
def NilErrorButEnvelopeError {D : Type} (out : TypedResponse D × Option GoError) : Prop :=
  out.2 = none ∧ out.1.Error.isSome = true

/-- What holds of a list wrapper: the error of the envelope is set exactly when the call
did not succeed; after a success the payload is `data`, the list decoded; and when the
decoder was not reached the payload is nil.  The payload of a call that reached the
decoder and did not succeed is left open. -/
def ListContract {α : Type} (out : TypedResponse (Option (List α)) × Option GoError)
    (success reached : Bool) (data : Option (List α)) : Prop :=
  out.1.Error.isSome = !success ∧
    (success = true → out.1.Data = data) ∧
    (reached = false → out.1.Data = none)

/-- What holds of a wrapper by key: the error of the envelope is set exactly when the call
did not succeed, the payload exactly when it succeeded with one item, and never both. -/
def KeyedContract {α : Type} (out : TypedResponse (Option α) × Option GoError)
    (success : Bool) (items : Option (List α)) : Prop :=
  out.1.Error.isSome = !success ∧
    out.1.Data.isSome = (success && decide ((items.getD []).length = 1)) ∧
    ¬ (out.1.Data.isSome = true ∧ out.1.Error.isSome = true)

/-- The payload is nil, the error of the envelope has the message `m`, and the status
code of the envelope is `code`. -/
def ErrorCarried {D : Type} (out : TypedResponse (Option D) × Option GoError) (m : String)
    (code : Int) : Prop :=
  out.1.Data = none ∧ (∃ e, out.1.Error = some e ∧ e.Message = m) ∧ out.1.StatusCode = code

/-- The payload is the item of a list of one item and nil for any other list, and neither
the envelope nor the call has an error. -/
def SingleOrNil {α : Type} (out : TypedResponse (Option α) × Option GoError)
    (items : Option (List α)) : Prop :=
  (∀ item, items = some [item] → out.1.Data = some item) ∧
    ((items.getD []).length ≠ 1 → out.1.Data = none) ∧
    out.1.Error = none ∧ out.2 = none

/-- The requests of the examples: the stock client gets `404` with an empty list, `200`
with an empty list, `404` with the body of an error; the client with stats gets `200` with
an empty list. -/
def notFoundEmptyList : RequestFn :=
  stockClient.request (exchange (jsonResponse 404 "404 Not Found" "[]"))
def okEmptyList : RequestFn :=
  stockClient.request (exchange (jsonResponse 200 "200 OK" "[]"))
def notFoundMessage : RequestFn :=
  stockClient.request (exchange (jsonResponse 404 "404 Not Found" notFoundBody))
def okEmptyListTimed : RequestFn :=
  statsClient.request (exchange (jsonResponse 200 "200 OK" "[]"))

/-- More requests of the examples: the stock client gets `206` with a list of one item,
and `200` with the body `null`. -/
def partialList : RequestFn :=
  stockClient.request (exchange (jsonResponse 206 "206 Partial Content" "[1]"))
def okNull : RequestFn :=
  stockClient.request (exchange (jsonResponse 200 "200 OK" "null"))

/-- A decoder for the examples that finds the one item `item` in any body. -/
def singleUnmarshal {α : Type} (item : α) : Unmarshal (Option (List α)) := fun body target =>
  if body.isSome then (some [item], none)
  else (target, some (.new "unexpected end of JSON input"))

/-- What `notFoundMessage` gives to a call for `/asset_info`. -/
def notFoundOutcome : Outcome := notFoundMessage {} "GET" "/asset_info" none none none

/-! ## Lemmas on the options -/

theorem updateBaseURL_reqInterval (c : Client) :
    (Client.updateBaseURL c).2.reqInterval = c.reqInterval := by
  unfold Client.updateBaseURL
  split <;> rfl

theorem updateBaseURL_client (c : Client) :
    (Client.updateBaseURL c).2.client = c.client := by
  unfold Client.updateBaseURL
  split <;> rfl

theorem updateBaseURL_origin (c : Client) :
    (Client.updateBaseURL c).2.origin = c.origin := by
  unfold Client.updateBaseURL
  split <;> rfl

/-- A rate within `1..255` gives a positive interval. -/
theorem tdiv_second_pos (R : Nat) (h1 : 1 ≤ R) (h2 : R ≤ 255) :
    0 < Int.tdiv Second (R : Int) ∧ Int.tdiv Second (R : Int) = ((1000000000 / R : Nat) : Int) := by
  have hq : Int.tdiv Second (R : Int) = ((1000000000 / R : Nat) : Int) := by
    unfold Second
    rw [Int.tdiv_eq_ediv (by norm_num) (Int.ofNat_nonneg R)]
    norm_cast
  refine ⟨?_, hq⟩
  rw [hq]
  have : 0 < 1000000000 / R := Nat.div_pos (by omega) (by omega)
  exact_mod_cast this

theorem rateLimit_reqInterval_pos (reqps : Nat) (c : Client) (h : reqps < 256)
    (hc : 0 < c.reqInterval) : 0 < (RateLimit reqps c).2.reqInterval := by
  unfold RateLimit
  split
  · exact hc
  · exact (tdiv_second_pos reqps (by omega) (by omega)).1

theorem origin_reqInterval (o : String) (c : Client) :
    (Origin o c).2.reqInterval = c.reqInterval := by
  unfold Origin
  split <;> rfl

theorem origin_client (o : String) (c : Client) : (Origin o c).2.client = c.client := by
  unfold Origin
  split <;> rfl

theorem httpClient_reqInterval (x : Option http.Client) (c : Client) :
    (HTTPClient x c).2.reqInterval = c.reqInterval := by
  unfold HTTPClient
  split
  · rfl
  · dsimp only
    split <;> rfl

/-- Every option of the library keeps a positive request interval positive. -/
theorem libOption_reqInterval_pos (o : LibOption) (c : Client) (h : o.WellTyped = true)
    (hc : 0 < c.reqInterval) : 0 < (o.toOption c).2.reqInterval := by
  cases o with
  | Host host => simpa [LibOption.toOption, Host, updateBaseURL_reqInterval] using hc
  | APIVersion version =>
    simpa [LibOption.toOption, APIVersion, updateBaseURL_reqInterval] using hc
  | Port port => simpa [LibOption.toOption, Port, updateBaseURL_reqInterval] using hc
  | Schema schema => simpa [LibOption.toOption, Schema, updateBaseURL_reqInterval] using hc
  | HTTPClient client => simpa [LibOption.toOption, httpClient_reqInterval] using hc
  | RateLimit reqps =>
    exact rateLimit_reqInterval_pos reqps c (by simpa [LibOption.WellTyped] using h) hc
  | Origin origin => simpa [LibOption.toOption, origin_reqInterval] using hc
  | CollectRequestsStats enabled => simpa [LibOption.toOption, CollectRequestsStats] using hc

theorem applyOptions_reqInterval_pos (os : List LibOption) :
    ∀ (c c1 : Client), (∀ o ∈ os, o.WellTyped = true) → 0 < c.reqInterval →
      applyOptions (os.map LibOption.toOption) c = .ok c1 → 0 < c1.reqInterval := by
  induction os with
  | nil =>
    intro c c1 _ hc h
    simp only [List.map_nil, applyOptions, Except.ok.injEq] at h
    exact h ▸ hc
  | cons o rest ih =>
    intro c c1 hwt hc h
    simp only [List.map_cons, applyOptions] at h
    have hstep := libOption_reqInterval_pos o c (hwt o (List.mem_cons_self _ _)) hc
    generalize hres : o.toOption c = res at h hstep
    obtain ⟨e, c2⟩ := res
    cases e with
    | some err => simp at h
    | none =>
      exact ih c2 c1 (fun o1 ho1 => hwt o1 (List.mem_cons_of_mem _ ho1)) hstep h

theorem newDefaults_reqInterval (rt : Runtime) : (newDefaults rt).reqInterval = 200000000 := by
  simp only [newDefaults, RateLimit, DefaultRateLimit, updateBaseURL_reqInterval]
  decide

theorem new_reqInterval_pos (rt : Runtime) (os : List LibOption) (c : Client)
    (hwt : ∀ o ∈ os, o.WellTyped = true)
    (hnew : New rt (os.map LibOption.toOption) = .ok c) : 0 < c.reqInterval := by
  unfold New at hnew
  split at hnew
  · simp at hnew
  · rename_i c4 h4
    have h4pos : 0 < c4.reqInterval :=
      applyOptions_reqInterval_pos os (newDefaults rt) c4 hwt
        (by rw [newDefaults_reqInterval]; decide) h4
    have h5pos : 0 < (Origin DefaultOrigin c4).2.reqInterval := by
      rw [origin_reqInterval]; exact h4pos
    dsimp only at hnew
    split at hnew
    · have h6 := httpClient_reqInterval none (Origin DefaultOrigin c4).2
      split at hnew
      · simp at hnew
      · rename_i c6 hres
        simp only [Except.ok.injEq] at hnew
        rw [hres] at h6
        rw [← hnew]
        have h7 : c6.reqInterval = (Origin DefaultOrigin c4).2.reqInterval := h6
        rw [h7]; exact h5pos
    · simp only [Except.ok.injEq] at hnew
      rw [← hnew]; exact h5pos

theorem callEach_rateLimit_pos (rs : List Nat) :
    ∀ c : Client, (∀ r ∈ rs, r < 256) → 0 < c.reqInterval →
      0 < (callEach (rs.map RateLimit) c).reqInterval := by
  induction rs with
  | nil => intro c _ hc; simpa [callEach] using hc
  | cons r rest ih =>
    intro c hrs hc
    simp only [List.map_cons, callEach]
    exact ih _ (fun r1 h1 => hrs r1 (List.mem_cons_of_mem _ h1))
      (rateLimit_reqInterval_pos r c (hrs r (List.mem_cons_self _ _)) hc)

theorem newDefaults_client (rt : Runtime) : (newDefaults rt).client = none := by
  simp [newDefaults, RateLimit, DefaultRateLimit, updateBaseURL_client]

/-- An option of the library other than `HTTPClient` leaves the HTTP client as it is. -/
theorem libOption_client (o : LibOption) (c : Client) (h : o.isHTTPClient = false) :
    (o.toOption c).2.client = c.client := by
  cases o with
  | Host host => simp [LibOption.toOption, Host, updateBaseURL_client]
  | APIVersion version => simp [LibOption.toOption, APIVersion, updateBaseURL_client]
  | Port port => simp [LibOption.toOption, Port, updateBaseURL_client]
  | Schema schema => simp [LibOption.toOption, Schema, updateBaseURL_client]
  | HTTPClient client => simp [LibOption.isHTTPClient] at h
  | RateLimit reqps =>
    simp only [LibOption.toOption, RateLimit]
    split <;> rfl
  | Origin origin => simp [LibOption.toOption, origin_client]
  | CollectRequestsStats enabled => simp [LibOption.toOption, CollectRequestsStats]

theorem applyOptions_client (os : List LibOption) :
    ∀ (c c1 : Client), (∀ o ∈ os, o.isHTTPClient = false) →
      applyOptions (os.map LibOption.toOption) c = .ok c1 → c1.client = c.client := by
  induction os with
  | nil =>
    intro c c1 _ h
    simp only [List.map_nil, applyOptions, Except.ok.injEq] at h
    rw [h]
  | cons o rest ih =>
    intro c c1 hno h
    simp only [List.map_cons, applyOptions] at h
    have hstep := libOption_client o c (hno o (List.mem_cons_self _ _))
    generalize o.toOption c = res at h hstep
    obtain ⟨e, c2⟩ := res
    cases e with
    | some err => simp at h
    | none =>
      have := ih c2 c1 (fun o1 ho1 => hno o1 (List.mem_cons_of_mem _ ho1)) h
      rw [this]; exact hstep

/-- The call `HTTPClient(nil)` on a client without HTTP client installs the default one. -/
theorem httpClient_nil_installs (c : Client) (h : c.client = none) :
    HTTPClient none c =
      (none, { c with
        client := some { Transport := some http.RoundTripper.DefaultTransport,
                         Timeout := 60000000000 } }) := by
  simp [HTTPClient, h, Second]

/-- A client returned by `New` has an HTTP client installed. -/
theorem new_client_installed (rt : Runtime) (opts : List ClientOption) (c : Client)
    (hnew : New rt opts = .ok c) : c.client ≠ none := by
  unfold New at hnew
  split at hnew
  · simp at hnew
  · rename_i c4 h4
    dsimp only at hnew
    split at hnew
    · rename_i h5
      rw [httpClient_nil_installs _ h5] at hnew
      simp only [Except.ok.injEq] at hnew
      rw [← hnew]; simp
    · rename_i h5
      simp only [Except.ok.injEq] at hnew
      rw [← hnew]; exact h5

/-- The default origin parses, and is its own normal form. -/
theorem origin_default (c : Client) :
    Origin DefaultOrigin c = (none, { c with origin := DefaultOrigin }) := by
  have hd : url.ParseRequestURI DefaultOrigin =
      .ok { Scheme := "https", Host := "github.com", Path := "/howijd/koios-rest-go-client" } := by
    rfl
  have hsd : url.URL.String
      { Scheme := "https", Host := "github.com", Path := "/howijd/koios-rest-go-client" } =
      DefaultOrigin := by decide
  simp only [Origin, hd, hsd]

/-- The origin of a client returned by `New` is the default origin, whatever the options. -/
theorem new_origin (rt : Runtime) (opts : List ClientOption) (c : Client)
    (hnew : New rt opts = .ok c) : c.origin = DefaultOrigin := by
  unfold New at hnew
  split at hnew
  · simp at hnew
  · rename_i c4 h4
    rw [origin_default] at hnew
    dsimp only at hnew
    split at hnew
    · rename_i h5
      rw [httpClient_nil_installs _ (by exact h5)] at hnew
      simp only [Except.ok.injEq] at hnew
      rw [← hnew]
    · simp only [Except.ok.injEq] at hnew
      rw [← hnew]

theorem GoError.is_self (e : GoError) : e.Is e = true := by
  cases e <;> simp [GoError.Is]

theorem GoError.is_wrap (text : String) (inner : GoError) :
    (GoError.wrap text inner).Is inner = true := by
  simp [GoError.Is, GoError.is_self]

/-- The search of `strings.Contains` finds exactly the contiguous sublists. -/
theorem containsBytes_iff_contiguous (substr s : List Char) :
    strings.containsBytes substr s = true ↔ substr <:+: s := by
  induction s with
  | nil => simp [strings.containsBytes, List.isEmpty_iff]
  | cons c rest ih =>
    simp [strings.containsBytes, ih, List.infix_cons_iff, List.isPrefixOf_iff_prefix]

theorem contains_iff_contiguous (s substr : String) :
    strings.Contains s substr = true ↔ substr.data <:+: s.data :=
  containsBytes_iff_contiguous substr.data s.data

/-! ## The claims -/

/-- C1: for every client, `RateLimit(0)` returns `ErrRateLimitRange` and leaves the request
interval (indeed the whole client) as it was before the call. -/
theorem C1_rateLimit_zero_rejected (c : Client) :
    (RateLimit 0 c).1 = some ErrRateLimitRange ∧
      (RateLimit 0 c).2.reqInterval = c.reqInterval ∧ (RateLimit 0 c).2 = c := by
  simp [RateLimit]

/-- C2: for every rate `R` in `1..255`, `RateLimit(R)` returns no error and sets the request
interval to the floor of `1000000000 / R` nanoseconds, which is positive; it is one second
for `R = 1` and `3921568` ns for `R = 255`; and a client returned by `New` for options of
the library, followed by any sequence of `RateLimit` calls, failed or not, has a positive
request interval. -/
theorem C2_rateLimit_interval (R : Nat) (c0 : Client) (rt : Runtime) (os : List LibOption)
    (c : Client) (rs : List Nat)
    (hR : 1 ≤ R ∧ R ≤ 255)
    (hwt : ∀ o ∈ os, o.WellTyped = true)
    (hnew : New rt (os.map LibOption.toOption) = .ok c)
    (hrs : ∀ r ∈ rs, r < 256) :
    ((RateLimit R c0).1 = none ∧
      (RateLimit R c0).2.reqInterval = ((1000000000 / R : Nat) : Int) ∧
      0 < (RateLimit R c0).2.reqInterval) ∧
    (RateLimit 1 c0).2.reqInterval = Second ∧
    (RateLimit 255 c0).2.reqInterval = 3921568 ∧
    0 < c.reqInterval ∧
    0 < (callEach (rs.map RateLimit) c).reqInterval := by
  have hRne : R ≠ 0 := by omega
  have hdiv := tdiv_second_pos R hR.1 hR.2
  have hc := new_reqInterval_pos rt os c hwt hnew
  refine ⟨⟨?_, ?_, ?_⟩, ?_, ?_, hc, callEach_rateLimit_pos rs c hrs hc⟩
  · simp [RateLimit, hRne]
  · simp only [RateLimit, hRne, if_false]; exact hdiv.2
  · simp only [RateLimit, hRne, if_false]; exact hdiv.1
  · rfl
  · rfl

/-- The hypotheses of C2 hold at rate `10`, with `c` the client of `New(RateLimit(10))`
and the calls `RateLimit(0)`, `RateLimit(7)` after it. -/
theorem C2_rateLimit_interval_witness :
    ((RateLimit 10 {}).1 = none ∧
      (RateLimit 10 {}).2.reqInterval = ((1000000000 / 10 : Nat) : Int) ∧
      0 < (RateLimit 10 {}).2.reqInterval) ∧
    (RateLimit 1 {}).2.reqInterval = Second ∧
    (RateLimit 255 {}).2.reqInterval = 3921568 ∧
    0 < ({ stockClient with reqInterval := 100000000 } : Client).reqInterval ∧
    0 < (callEach ([0, 7].map RateLimit)
      { stockClient with reqInterval := 100000000 }).reqInterval :=
  C2_rateLimit_interval 10 {} linuxAmd64 [.RateLimit 10]
    { stockClient with reqInterval := 100000000 } [0, 7]
    (by decide) (by decide) (by rfl) (by decide)

/-- C3, as stated, fails: `"/foo"` is not an absolute URL (it has neither scheme nor
host), yet `Origin("/foo")` returns no error and replaces the stored origin. -/
theorem C3_origin_accepts_absolute_path :
    IsAbsoluteURL "/foo" = false ∧
      (Origin "/foo" stockClient).1 = none ∧
      (Origin "/foo" stockClient).2.origin = "/foo" ∧
      (Origin "/foo" stockClient).2.origin ≠ stockClient.origin := by
  decide

/-- C3, amended: for every string that `url.ParseRequestURI` rejects, `Origin` returns the
error of the parser and leaves the client, its stored origin included, unchanged. -/
theorem C3_origin_rejected_unchanged (s : String) (c : Client)
    (h : (url.ParseRequestURI s).toOption = none) :
    (∃ err, url.ParseRequestURI s = .error err ∧ (Origin s c).1 = some err) ∧
      (Origin s c).2.origin = c.origin ∧ (Origin s c).2 = c := by
  unfold Origin
  cases hp : url.ParseRequestURI s with
  | error err => exact ⟨⟨err, rfl, rfl⟩, rfl, rfl⟩
  | ok u => rw [hp] at h; simp [Except.toOption] at h

/-- The hypothesis of the amended C3 holds for the host name `example.com`, which has
no scheme and does not start with a slash. -/
theorem C3_origin_rejected_unchanged_witness :
    (∃ err, url.ParseRequestURI "example.com" = .error err ∧
        (Origin "example.com" stockClient).1 = some err) ∧
      (Origin "example.com" stockClient).2.origin = stockClient.origin ∧
      (Origin "example.com" stockClient).2 = stockClient :=
  C3_origin_rejected_unchanged "example.com" stockClient (by decide)

/-- C4 fails on the code: `New` sets the default origin after the options, whatever they
set.  The option `Origin("https://example.com")` succeeds and stores the origin given, yet
`New(Origin("https://example.com"))` returns a client whose origin is `DefaultOrigin`, not
the normalised form `"https://example.com"` of the origin given; and so it is for every
list of options. -/
theorem C4_new_overwrites_origin (rt : Runtime) :
    (Origin "https://example.com" (newDefaults rt)).1 = none ∧
    (Origin "https://example.com" (newDefaults rt)).2.origin = "https://example.com" ∧
    (∃ c, New rt [Origin "https://example.com"] = .ok c ∧ c.origin = DefaultOrigin ∧
      c.origin ≠ "https://example.com") ∧
    (∀ opts c, New rt opts = .ok c → c.origin = DefaultOrigin) := by
  have hp : url.ParseRequestURI "https://example.com" =
      .ok { Scheme := "https", Host := "example.com" } := by rfl
  have hs : url.URL.String { Scheme := "https", Host := "example.com" } =
      "https://example.com" := by decide
  have hclient : (newDefaults rt).client = none := newDefaults_client rt
  have hnew : ∃ c, New rt [Origin "https://example.com"] = .ok c := by
    simp only [New, applyOptions, Origin, hp, origin_default]
    simp only [hclient, if_true, httpClient_nil_installs]
    exact ⟨_, rfl⟩
  obtain ⟨c, hc⟩ := hnew
  have ho := new_origin rt _ c hc
  refine ⟨by simp [Origin, hp], by simp [Origin, hp, hs], ⟨c, hc, ho, ?_⟩,
    fun opts c1 h1 => new_origin rt opts c1 h1⟩
  rw [ho]; decide

/-- C5: for every HTTP client `h` whose `Timeout` is `0`, `New(HTTPClient(h))` returns no
client and the error `ErrHTTPClientTimeoutSetting`, and the option `HTTPClient(h)` itself,
on a client without HTTP client (as the one of `New`), returns that error and leaves the
client, its HTTP client field included, unset. -/
theorem C5_zero_timeout_rejected (rt : Runtime) (h : http.Client) (c : Client)
    (hzero : h.Timeout = 0) (hc : c.client = none) :
    New rt [HTTPClient (some h)] = .error ErrHTTPClientTimeoutSetting ∧
      (HTTPClient (some h) (newDefaults rt)).2.client = none ∧
      (HTTPClient (some h) c).1 = some ErrHTTPClientTimeoutSetting ∧
      (HTTPClient (some h) c).2.client = none ∧
      (HTTPClient (some h) c).2 = c := by
  have hd := newDefaults_client rt
  refine ⟨?_, ?_, ?_, ?_, ?_⟩
  · simp [New, applyOptions, HTTPClient, hd, hzero]
  · simp [HTTPClient, hd, hzero]
  · simp [HTTPClient, hc, hzero]
  · simp [HTTPClient, hc, hzero]
  · simp [HTTPClient, hc, hzero]

/-- The hypotheses of C5 hold for the zero value of `http.Client` and the empty client. -/
theorem C5_zero_timeout_rejected_witness :
    New linuxAmd64 [HTTPClient (some {})] = .error ErrHTTPClientTimeoutSetting ∧
      (HTTPClient (some {}) (newDefaults linuxAmd64)).2.client = none ∧
      (HTTPClient (some {}) {}).1 = some ErrHTTPClientTimeoutSetting ∧
      (HTTPClient (some {}) {}).2.client = none ∧
      (HTTPClient (some {}) {}).2 = {} :=
  C5_zero_timeout_rejected linuxAmd64 {} {} rfl rfl

/-- C6: for every list of options of the library with no `HTTPClient` option among them,
all of which succeed (the empty list included), `New` returns a client and no error, and
the HTTP client installed in it is the default one, whose timeout is 60 seconds, not zero. -/
theorem C6_default_http_client (rt : Runtime) (os : List LibOption)
    (hno : ∀ o ∈ os, o.isHTTPClient = false)
    (hok : ∃ c4, applyOptions (os.map LibOption.toOption) (newDefaults rt) = .ok c4) :
    ∃ c hc, New rt (os.map LibOption.toOption) = .ok c ∧ c.client = some hc ∧
      hc.Timeout = 60 * Second ∧ hc.Timeout ≠ 0 ∧
      hc = { Transport := some http.RoundTripper.DefaultTransport, Timeout := 60000000000 } := by
  obtain ⟨c4, h4⟩ := hok
  have hc4 : c4.client = none := by
    rw [applyOptions_client os (newDefaults rt) c4 hno h4]; exact newDefaults_client rt
  have hc5 : (Origin DefaultOrigin c4).2.client = none := by rw [origin_client]; exact hc4
  refine ⟨{ (Origin DefaultOrigin c4).2 with
      client := some { Transport := some http.RoundTripper.DefaultTransport,
                       Timeout := 60000000000 } },
    { Transport := some http.RoundTripper.DefaultTransport, Timeout := 60000000000 },
    ?_, rfl, by decide, by decide, rfl⟩
  simp only [New, h4, hc5, if_true, httpClient_nil_installs _ hc5]

/-- The hypotheses of C6 hold for the options `Host("guild.koios.rest")`, `RateLimit(3)`. -/
theorem C6_default_http_client_witness :
    ∃ c hc, New linuxAmd64 ([.Host "guild.koios.rest", .RateLimit 3].map LibOption.toOption)
        = .ok c ∧ c.client = some hc ∧
      hc.Timeout = 60 * Second ∧ hc.Timeout ≠ 0 ∧
      hc = { Transport := some http.RoundTripper.DefaultTransport, Timeout := 60000000000 } :=
  C6_default_http_client linuxAmd64 [.Host "guild.koios.rest", .RateLimit 3] (by decide)
    ⟨_, rfl⟩

/-- C7: for every client with an HTTP client installed, and so for every client returned
by `New`, and every argument (nil, with a zero timeout, or valid), the option `HTTPClient`
returns `ErrHTTPClientChange` and leaves the client, its HTTP client included, unchanged. -/
theorem C7_http_client_immutable (c : Client) (x : Option http.Client) (rt : Runtime)
    (opts : List ClientOption) (cn : Client)
    (hc : c.client ≠ none) (hnew : New rt opts = .ok cn) :
    ((HTTPClient x c).1 = some ErrHTTPClientChange ∧ (HTTPClient x c).2.client = c.client ∧
      (HTTPClient x c).2 = c) ∧
    ((HTTPClient x cn).1 = some ErrHTTPClientChange ∧ (HTTPClient x cn).2.client = cn.client ∧
      (HTTPClient x cn).2 = cn) := by
  have hcn := new_client_installed rt opts cn hnew
  constructor
  · simp [HTTPClient, hc]
  · simp [HTTPClient, hcn]

/-- The hypotheses of C7 hold for the client of `New()` and a valid argument. -/
theorem C7_http_client_immutable_witness :
    ((HTTPClient (some { Timeout := 5 }) stockClient).1 = some ErrHTTPClientChange ∧
      (HTTPClient (some { Timeout := 5 }) stockClient).2.client = stockClient.client ∧
      (HTTPClient (some { Timeout := 5 }) stockClient).2 = stockClient) ∧
    ((HTTPClient (some { Timeout := 5 }) stockClient).1 = some ErrHTTPClientChange ∧
      (HTTPClient (some { Timeout := 5 }) stockClient).2.client = stockClient.client ∧
      (HTTPClient (some { Timeout := 5 }) stockClient).2 = stockClient) :=
  C7_http_client_immutable stockClient (some { Timeout := 5 }) linuxAmd64 [] stockClient
    (by decide) (by rfl)

/-- C8: for every response whose body is read without error, `readResponseBody` fails with
an error that wraps `ErrResponseIsNotJSON` if and only if the value of the `Content-Type`
header does not contain `json`; when it does, the result is the bytes of the body and no
error; and the status code of the response plays no part. -/
theorem C8_not_json_iff (rsp : http.Response) (hread : rsp.Body.err = none) :
    ((∃ err, (readResponseBody rsp).2 = some err ∧ err.Is ErrResponseIsNotJSON = true) ↔
      ¬ ("json".data <:+: (rsp.Header.Get "Content-Type").data)) ∧
    ("json".data <:+: (rsp.Header.Get "Content-Type").data →
      readResponseBody rsp = (some rsp.Body.data, none)) ∧
    (∀ code : Int, readResponseBody { rsp with StatusCode := code } = readResponseBody rsp) := by
  refine ⟨?_, ?_, fun code => rfl⟩
  · by_cases hj : "json".data <:+: (rsp.Header.Get "Content-Type").data
    · have hc := (contains_iff_contiguous _ _).2 hj
      simp [readResponseBody, ReadAll, hread, hc, hj]
    · have hc : strings.Contains (rsp.Header.Get "Content-Type") "json" = false := by
        rw [← Bool.not_eq_true, contains_iff_contiguous]; exact hj
      simp only [readResponseBody, ReadAll, hread, hc, hj, not_false_eq_true, iff_true]
      exact ⟨_, rfl, GoError.is_wrap _ _⟩
  · intro hj
    have hc := (contains_iff_contiguous _ _).2 hj
    simp [readResponseBody, ReadAll, hread, hc]

/-- The hypothesis of C8 holds for a response `404` with an HTML body. -/
theorem C8_not_json_iff_witness :
    ((∃ err, (readResponseBody htmlNotFound).2 = some err ∧
        err.Is ErrResponseIsNotJSON = true) ↔
      ¬ ("json".data <:+: (htmlNotFound.Header.Get "Content-Type").data)) ∧
    ("json".data <:+: (htmlNotFound.Header.Get "Content-Type").data →
      readResponseBody htmlNotFound = (some htmlNotFound.Body.data, none)) ∧
    (∀ code : Int,
      readResponseBody { htmlNotFound with StatusCode := code } = readResponseBody htmlNotFound) :=
  C8_not_json_iff htmlNotFound rfl

/-- C9, as stated, fails: for a response `404` whose body `<html>not found</html>` is read
without error and whose content type is `text/html`, `readResponseBody` fails with the
error for a response that is not JSON, and its byte result is nil, not the body. -/
theorem C9_body_not_returned :
    htmlNotFound.Body.err = none ∧
      strings.Contains (htmlNotFound.Header.Get "Content-Type") "json" = false ∧
      (∃ err, (readResponseBody htmlNotFound).2 = some err ∧
        err.Is ErrResponseIsNotJSON = true) ∧
      (readResponseBody htmlNotFound).1 = none ∧
      (readResponseBody htmlNotFound).1 ≠ some htmlNotFound.Body.data := by
  refine ⟨rfl, by decide, ⟨_, rfl, by decide⟩, by decide, by decide⟩

/-- C9, amended: when `readResponseBody` fails because the content type is not JSON, its
byte result is nil; the bytes of the body are in the text of the error returned, which is
the text of `ErrResponseIsNotJSON`, a colon and a blank, then the body, and which unwraps
to `ErrResponseIsNotJSON`. -/
theorem C9_body_in_error_text (rsp : http.Response) (hread : rsp.Body.err = none)
    (hj : ¬ ("json".data <:+: (rsp.Header.Get "Content-Type").data)) :
    (readResponseBody rsp).1 = none ∧
      ∃ err, (readResponseBody rsp).2 = some err ∧
        err.Error = "go non json response" ++ ": " ++ rsp.Body.data ∧
        err.Unwrap = some ErrResponseIsNotJSON := by
  have hc : strings.Contains (rsp.Header.Get "Content-Type") "json" = false := by
    rw [← Bool.not_eq_true, contains_iff_contiguous]; exact hj
  simp only [readResponseBody, ReadAll, hread, hc]
  exact ⟨rfl, _, rfl, rfl, rfl⟩

/-- The hypotheses of the amended C9 hold for a response `404` with an HTML body. -/
theorem C9_body_in_error_text_witness :
    (readResponseBody htmlNotFound).1 = none ∧
      ∃ err, (readResponseBody htmlNotFound).2 = some err ∧
        err.Error = "go non json response" ++ ": " ++ htmlNotFound.Body.data ∧
        err.Unwrap = some ErrResponseIsNotJSON :=
  C9_body_in_error_text htmlNotFound rfl (by decide)

/-- C10: for every envelope, body and local error, after `applyError(body, err)` the
envelope's `Error` is a new record, not nil, that holds the fields decoded from the body
into a zero record (the error of the decoder is dropped, and the `Error` the envelope had
before plays no part); its `Message` is the text of `err` when `err` is not nil and the
decoded message is empty, and the decoded message otherwise, so a message decoded from the
body that is not empty is never overwritten. -/
theorem C10_applyError (env : Env) (r : Response) (body : Option String)
    (err : Option GoError) :
    ∃ rerr, (r.applyError env body err).Error = some rerr ∧
      rerr.Hint = (env.unmarshalResponseError body {}).1.Hint ∧
      rerr.Details = (env.unmarshalResponseError body {}).1.Details ∧
      rerr.Code = (env.unmarshalResponseError body {}).1.Code ∧
      (∀ e, err = some e → (env.unmarshalResponseError body {}).1.Message = "" →
        rerr.Message = e.Error) ∧
      (err = none ∨ (env.unmarshalResponseError body {}).1.Message ≠ "" →
        rerr.Message = (env.unmarshalResponseError body {}).1.Message) ∧
      (∀ old, ({ r with Error := old }.applyError env body err).Error = some rerr) := by
  have hlen : ∀ s : String, s.length = 0 ↔ s = "" := by
    intro s
    constructor
    · intro h
      have hd : s.data = [] := List.length_eq_zero.1 h
      cases s; simp_all
    · intro h; rw [h]; rfl
  have hready : ∀ r1 : Response, (r1.ready env).Error = r1.Error := by
    intro r1
    unfold Response.ready
    split <;> rfl
  cases err with
  | none =>
    refine ⟨(env.unmarshalResponseError body {}).1, ?_, rfl, rfl, rfl, ?_, ?_, ?_⟩
    · simp [Response.applyError, hready]
    · intro e he; cases he
    · intro _; rfl
    · intro old; simp [Response.applyError, hready]
  | some e =>
    by_cases hm : (env.unmarshalResponseError body {}).1.Message = ""
    · refine ⟨{ (env.unmarshalResponseError body {}).1 with Message := e.Error },
        ?_, rfl, rfl, rfl, ?_, ?_, ?_⟩
      · simp [Response.applyError, hready, hlen, hm]
      · intro e1 he _; cases he; rfl
      · intro h; rcases h with h | h
        · cases h
        · exact absurd hm h
      · intro old; simp [Response.applyError, hready, hlen, hm]
    · refine ⟨(env.unmarshalResponseError body {}).1, ?_, rfl, rfl, rfl, ?_, ?_, ?_⟩
      · simp [Response.applyError, hready, hlen, hm]
      · intro e1 _ h; exact absurd h hm
      · intro _; rfl
      · intro old; simp [Response.applyError, hready, hlen, hm]

/-! ## Lemmas on the envelope and the wrappers -/

theorem ready_Error (env : Env) (r : Response) : (r.ready env).Error = r.Error := by
  unfold Response.ready
  split <;> rfl

theorem ready_StatusCode (env : Env) (r : Response) :
    (r.ready env).StatusCode = r.StatusCode := by
  unfold Response.ready
  split <;> rfl

theorem applyError_isSome (env : Env) (r : Response) (body : Option String)
    (err : Option GoError) : (r.applyError env body err).Error.isSome = true := by
  simp [Response.applyError, ready_Error]

theorem applyError_StatusCode (env : Env) (r : Response) (body : Option String)
    (err : Option GoError) : (r.applyError env body err).StatusCode = r.StatusCode := by
  simp [Response.applyError, ready_StatusCode]

/-- A message decoded from the body that is not empty is the message of the error. -/
theorem applyError_message (env : Env) (r : Response) (body : Option String)
    (err : Option GoError) (m : String)
    (hm : (env.unmarshalResponseError body {}).1.Message = m) (hne : m ≠ "") :
    ∃ e, (r.applyError env body err).Error = some e ∧ e.Message = m := by
  have hlen : (env.unmarshalResponseError body {}).1.Message.length ≠ 0 := by
    intro h
    apply hne
    rw [← hm]
    have hd : (env.unmarshalResponseError body {}).1.Message.data = [] :=
      List.length_eq_zero.1 h
    generalize (env.unmarshalResponseError body {}).1.Message = msg at hd
    cases msg; simp_all
  cases err with
  | none => exact ⟨_, by simp [Response.applyError, ready_Error], hm⟩
  | some e => exact ⟨_, by simp [Response.applyError, ready_Error, hlen], hm⟩

/-- Each wrapper is its call of `request` followed by the decoding of its kind. -/
theorem GetAssetList_eq (env : Env) (um : Unmarshal (Option (List AssetListItem)))
    (request : RequestFn) :
    GetAssetList env um request =
      listDecode env um (request {} "GET" "/asset_list" none none none) := by
  unfold GetAssetList listDecode
  dsimp only
  generalize request _ "GET" "/asset_list" none none none = o
  obtain ⟨r1, x⟩ := o
  cases x with
  | error err => rfl
  | ok rsp =>
    dsimp only
    generalize readResponseBody rsp = rb
    obtain ⟨body, e⟩ := rb
    cases e with
    | some err => rfl
    | none =>
      dsimp only
      generalize um body none = d
      obtain ⟨data, e2⟩ := d
      cases e2 with
      | some err => rfl
      | none => rfl

theorem GetAssetAddressList_eq (env : Env) (um : Unmarshal (Option (List AssetHolder)))
    (request : RequestFn) (policy : PolicyID) (name : AssetName) :
    GetAssetAddressList env um request policy name =
      listDecode env um (request {} "GET" "/asset_address_list" none (some (assetParams policy name)) none) := by
  unfold GetAssetAddressList listDecode
  dsimp only
  generalize request _ "GET" "/asset_address_list" none (some (assetParams policy name)) none = o
  obtain ⟨r1, x⟩ := o
  cases x with
  | error err => rfl
  | ok rsp =>
    dsimp only
    generalize readResponseBody rsp = rb
    obtain ⟨body, e⟩ := rb
    cases e with
    | some err => rfl
    | none =>
      dsimp only
      generalize um body none = d
      obtain ⟨data, e2⟩ := d
      cases e2 with
      | some err => rfl
      | none => rfl

theorem GetAssetInfo_eq (env : Env) (um : Unmarshal (Option (List AssetInfo)))
    (request : RequestFn) (policy : PolicyID) (name : AssetName) :
    GetAssetInfo env um request policy name =
      byKeyDecode env um (request {} "GET" "/asset_info" none (some (assetParams policy name)) none) := by
  unfold GetAssetInfo byKeyDecode
  dsimp only
  generalize request _ "GET" "/asset_info" none (some (assetParams policy name)) none = o
  obtain ⟨r1, x⟩ := o
  cases x with
  | error err => rfl
  | ok rsp =>
    dsimp only
    generalize readResponseBody rsp = rb
    obtain ⟨body, e⟩ := rb
    cases e with
    | some err => rfl
    | none =>
      dsimp only
      generalize um body (some []) = d
      obtain ⟨data, e2⟩ := d
      cases e2 with
      | some err => rfl
      | none => rcases data with _ | (_ | ⟨a, _ | ⟨b, rest⟩⟩) <;> rfl

theorem GetAssetSummary_eq (env : Env) (um : Unmarshal (Option (List AssetSummary)))
    (request : RequestFn) (policy : PolicyID) (name : AssetName) :
    GetAssetSummary env um request policy name =
      byKeyDecode env um (request {} "GET" "/asset_summary" none (some (assetParams policy name)) none) := by
  unfold GetAssetSummary byKeyDecode
  dsimp only
  generalize request _ "GET" "/asset_summary" none (some (assetParams policy name)) none = o
  obtain ⟨r1, x⟩ := o
  cases x with
  | error err => rfl
  | ok rsp =>
    dsimp only
    generalize readResponseBody rsp = rb
    obtain ⟨body, e⟩ := rb
    cases e with
    | some err => rfl
    | none =>
      dsimp only
      generalize um body (some []) = d
      obtain ⟨data, e2⟩ := d
      cases e2 with
      | some err => rfl
      | none => rcases data with _ | (_ | ⟨a, _ | ⟨b, rest⟩⟩) <;> rfl

theorem GetAssetTxs_eq (env : Env) (um : Unmarshal (Option (List AssetTxs)))
    (request : RequestFn) (policy : PolicyID) (name : AssetName) :
    GetAssetTxs env um request policy name =
      byKeyDecode env um (request {} "GET" "/asset_txs" none (some (assetParams policy name)) none) := by
  unfold GetAssetTxs byKeyDecode
  dsimp only
  generalize request _ "GET" "/asset_txs" none (some (assetParams policy name)) none = o
  obtain ⟨r1, x⟩ := o
  cases x with
  | error err => rfl
  | ok rsp =>
    dsimp only
    generalize readResponseBody rsp = rb
    obtain ⟨body, e⟩ := rb
    cases e with
    | some err => rfl
    | none =>
      dsimp only
      generalize um body (some []) = d
      obtain ⟨data, e2⟩ := d
      cases e2 with
      | some err => rfl
      | none => rcases data with _ | (_ | ⟨a, _ | ⟨b, rest⟩⟩) <;> rfl

/-- The list wrappers: the error of the envelope is set exactly off the exit of success
(when `request` left it unset), and the payload is what the decoder left. -/
theorem listDecode_contract {α : Type} (env : Env) (um : Unmarshal (Option (List α)))
    (o : Outcome) (hfresh : o.1.Error = none) :
    (listDecode env um o).1.Error.isSome = !succeeds um none o ∧
      (listDecode env um o).1.Data = decoded um none o := by
  obtain ⟨r1, x⟩ := o
  cases x with
  | error err => simp [listDecode, succeeds, decoded, applyError_isSome]
  | ok rsp =>
    simp only [listDecode, succeeds, decoded]
    generalize readResponseBody rsp = rb
    obtain ⟨body, e⟩ := rb
    cases e with
    | some err => simp [applyError_isSome]
    | none =>
      dsimp only
      generalize um body none = d
      obtain ⟨data, e2⟩ := d
      cases e2 with
      | some err => simp [applyError_isSome]
      | none =>
        by_cases hs : rsp.StatusCode = http.StatusOK
        · simp only [hs, ne_eq, not_true_eq_false, if_false]
          simp at hfresh
          simp [hfresh]
        · simp [hs, applyError_isSome]

/-- The wrappers by key: the error of the envelope is set exactly off the exit of success
(when `request` left it unset), and the payload exactly on that exit with one item. -/
theorem byKeyDecode_contract {α : Type} (env : Env) (um : Unmarshal (Option (List α)))
    (o : Outcome) (hfresh : o.1.Error = none) :
    (byKeyDecode env um o).1.Error.isSome = !succeeds um (some []) o ∧
      (byKeyDecode env um o).1.Data.isSome =
        (succeeds um (some []) o &&
          decide (((decoded um (some []) o).getD []).length = 1)) := by
  obtain ⟨r1, x⟩ := o
  cases x with
  | error err => simp [byKeyDecode, succeeds, decoded, applyError_isSome]
  | ok rsp =>
    obtain ⟨body, e, hrb⟩ : ∃ body e, readResponseBody rsp = (body, e) := ⟨_, _, rfl⟩
    cases e with
    | some err => simp [byKeyDecode, succeeds, decoded, hrb, applyError_isSome]
    | none =>
      obtain ⟨items, e2, hd⟩ : ∃ items e2, um body (some []) = (items, e2) := ⟨_, _, rfl⟩
      cases e2 with
      | some err => simp [byKeyDecode, succeeds, decoded, hrb, hd, applyError_isSome]
      | none =>
        by_cases hs : rsp.StatusCode = http.StatusOK
        · simp at hfresh
          rcases items with _ | (_ | ⟨a, _ | ⟨b, rest⟩⟩) <;>
            simp [byKeyDecode, succeeds, decoded, hrb, hd, hs, ready_Error, hfresh]
        · simp [byKeyDecode, succeeds, decoded, hrb, hd, hs, applyError_isSome]

theorem readResponseBody_json (rsp : http.Response) (hread : rsp.Body.err = none)
    (hjson : "json".data <:+: (rsp.Header.Get "Content-Type").data) :
    readResponseBody rsp = (some rsp.Body.data, none) := by
  have hc := (contains_iff_contiguous _ _).2 hjson
  simp [readResponseBody, ReadAll, hread, hc]

/-- A list wrapper that passes the decoder and fails the status test returns a nil error
with the error of the envelope set. -/
theorem listDecode_status {α : Type} (env : Env) (um : Unmarshal (Option (List α)))
    (r1 : Response) (rsp : http.Response)
    (hread : (readResponseBody rsp).2 = none)
    (hdec : (um (readResponseBody rsp).1 none).2 = none)
    (hstatus : rsp.StatusCode ≠ http.StatusOK) :
    NilErrorButEnvelopeError (listDecode env um (r1, .ok rsp)) := by
  obtain ⟨body, e, hrb⟩ : ∃ body e, readResponseBody rsp = (body, e) := ⟨_, _, rfl⟩
  rw [hrb] at hread hdec
  obtain ⟨data, e2, hd⟩ : ∃ data e2, um body none = (data, e2) := ⟨_, _, rfl⟩
  simp only at hread hdec
  rw [hd] at hdec
  simp only at hdec
  subst hread hdec
  simp [NilErrorButEnvelopeError, listDecode, hrb, hd, hstatus, applyError_isSome]

theorem byKeyDecode_status {α : Type} (env : Env) (um : Unmarshal (Option (List α)))
    (r1 : Response) (rsp : http.Response)
    (hread : (readResponseBody rsp).2 = none)
    (hdec : (um (readResponseBody rsp).1 (some [])).2 = none)
    (hstatus : rsp.StatusCode ≠ http.StatusOK) :
    NilErrorButEnvelopeError (byKeyDecode env um (r1, .ok rsp)) := by
  obtain ⟨body, e, hrb⟩ : ∃ body e, readResponseBody rsp = (body, e) := ⟨_, _, rfl⟩
  rw [hrb] at hread hdec
  obtain ⟨data, e2, hd⟩ : ∃ data e2, um body (some []) = (data, e2) := ⟨_, _, rfl⟩
  simp only at hread hdec
  rw [hd] at hdec
  simp only at hdec
  subst hread hdec
  simp [NilErrorButEnvelopeError, byKeyDecode, hrb, hd, hstatus, applyError_isSome]

/-! ## The claims on the wrappers and the command line -/

/-- C11 fails on the code: on a response `404` with a JSON content type whose body `[]`
decodes without error, each of the five wrappers returns a nil error although the `Error`
of the envelope is set; and so it is for every response that passes the decoder and has a
status other than 200, since the status test passes on and returns the nil `err` of the
decoder. -/
theorem C11_non200_returns_nil_error :
    (NilErrorButEnvelopeError (GetAssetList exampleEnv listUnmarshal notFoundEmptyList) ∧
      NilErrorButEnvelopeError
        (GetAssetAddressList exampleEnv listUnmarshal notFoundEmptyList "policy" "name") ∧
      NilErrorButEnvelopeError
        (GetAssetInfo exampleEnv listUnmarshal notFoundEmptyList "policy" "name") ∧
      NilErrorButEnvelopeError
        (GetAssetSummary exampleEnv listUnmarshal notFoundEmptyList "policy" "name") ∧
      NilErrorButEnvelopeError
        (GetAssetTxs exampleEnv listUnmarshal notFoundEmptyList "policy" "name")) ∧
    (∀ (env : Env) (umL : Unmarshal (Option (List AssetListItem)))
        (umI : Unmarshal (Option (List AssetInfo))) (r1 : Response) (rsp : http.Response)
        (policy : PolicyID) (name : AssetName),
      (readResponseBody rsp).2 = none → rsp.StatusCode ≠ http.StatusOK →
      ((umL (readResponseBody rsp).1 none).2 = none →
        NilErrorButEnvelopeError (GetAssetList env umL (answer (r1, .ok rsp)))) ∧
      ((umI (readResponseBody rsp).1 (some [])).2 = none →
        NilErrorButEnvelopeError
          (GetAssetInfo env umI (answer (r1, .ok rsp)) policy name))) := by
  refine ⟨⟨?_, ?_, ?_, ?_, ?_⟩, ?_⟩
  · unfold NilErrorButEnvelopeError; decide
  · unfold NilErrorButEnvelopeError; decide
  · unfold NilErrorButEnvelopeError; decide
  · unfold NilErrorButEnvelopeError; decide
  · unfold NilErrorButEnvelopeError; decide
  · intro env umL umI r1 rsp policy name hread hstatus
    constructor
    · intro hdec
      rw [GetAssetList_eq]
      exact listDecode_status env umL r1 rsp hread hdec hstatus
    · intro hdec
      rw [GetAssetInfo_eq]
      exact byKeyDecode_status env umI r1 rsp hread hdec hstatus

/-- The payload of a list wrapper that did not reach the decoder is nil. -/
theorem listDecode_unreached {α : Type} (env : Env) (um : Unmarshal (Option (List α)))
    (o : Outcome) (h : decoderReached o = false) : (listDecode env um o).1.Data = none := by
  obtain ⟨r1, x⟩ := o
  cases x with
  | error err => rfl
  | ok rsp =>
    obtain ⟨body, e, hrb⟩ : ∃ body e, readResponseBody rsp = (body, e) := ⟨_, _, rfl⟩
    cases e with
    | some err => simp [listDecode, hrb]
    | none => simp [decoderReached, hrb] at h

/-- C12, as stated, fails, in three ways.  On a response `200` with a JSON content type
whose body `[]` decodes to the empty list, `GetAssetInfo` returns with neither the payload
nor the error of the envelope set.  On a response `206` with a JSON content type whose
body decodes to a list of one item, `GetAssetList` returns with both the payload and the
error of the envelope set.  On a response `200` with the body `null`, `GetAssetList`
returns with neither set. -/
theorem C12_not_exactly_one :
    ((GetAssetInfo exampleEnv listUnmarshal okEmptyList "policy" "name").1.Data = none ∧
      (GetAssetInfo exampleEnv listUnmarshal okEmptyList "policy" "name").1.Error = none ∧
      (GetAssetInfo exampleEnv listUnmarshal okEmptyList "policy" "name").2 = none) ∧
    ((GetAssetList exampleEnv (singleUnmarshal { PolicyID := "a0" }) partialList).1.Data =
        some [{ PolicyID := "a0" }] ∧
      (GetAssetList exampleEnv (singleUnmarshal { PolicyID := "a0" }) partialList).1.Error =
        some {}) ∧
    ((GetAssetList exampleEnv listUnmarshal okNull).1.Data = none ∧
      (GetAssetList exampleEnv listUnmarshal okNull).1.Error = none ∧
      (GetAssetList exampleEnv listUnmarshal okNull).2 = none) := by
  decide

/-- C12, amended: for each wrapper and every outcome of `request` that leaves the error of
the new envelope unset, the error of the envelope is set on return exactly when the call
did not leave by the exit of success (a response received, read with a JSON content type,
decoded without error, of status 200).  For the wrappers by key the payload is set exactly
on that exit with a list of one item, so payload and error are never both set, and neither
is set after a success with no item or several.  For the list wrappers the payload after
a success is the list decoded (nil when that is nil), and the payload is nil, with the
error set, when the decoder was not reached (a failure of the transport, of the read or of
the content type); what their payload is when they fail after the decoder ran is left
open. -/
theorem C12_payload_and_error (env : Env)
    (umL : Unmarshal (Option (List AssetListItem))) (umH : Unmarshal (Option (List AssetHolder)))
    (umI : Unmarshal (Option (List AssetInfo))) (umS : Unmarshal (Option (List AssetSummary)))
    (umT : Unmarshal (Option (List AssetTxs))) (o : Outcome) (policy : PolicyID)
    (name : AssetName) (hfresh : o.1.Error = none) :
    ListContract (GetAssetList env umL (answer o)) (succeeds umL none o) (decoderReached o)
      (decoded umL none o) ∧
    ListContract (GetAssetAddressList env umH (answer o) policy name)
      (succeeds umH none o) (decoderReached o) (decoded umH none o) ∧
    KeyedContract (GetAssetInfo env umI (answer o) policy name)
      (succeeds umI (some []) o) (decoded umI (some []) o) ∧
    KeyedContract (GetAssetSummary env umS (answer o) policy name)
      (succeeds umS (some []) o) (decoded umS (some []) o) ∧
    KeyedContract (GetAssetTxs env umT (answer o) policy name)
      (succeeds umT (some []) o) (decoded umT (some []) o) := by
  have keyed : ∀ {α : Type} (um : Unmarshal (Option (List α))),
      KeyedContract (byKeyDecode env um o) (succeeds um (some []) o)
        (decoded um (some []) o) := by
    intro α um
    have h := byKeyDecode_contract env um o hfresh
    refine ⟨h.1, h.2, ?_⟩
    rintro ⟨hd, he⟩
    rw [h.1] at he
    rw [h.2] at hd
    simp at he hd
    rw [he] at hd
    simp at hd
  have listed : ∀ {α : Type} (um : Unmarshal (Option (List α))),
      ListContract (listDecode env um o) (succeeds um none o) (decoderReached o)
        (decoded um none o) := by
    intro α um
    have h := listDecode_contract env um o hfresh
    exact ⟨h.1, fun _ => h.2, fun hr => listDecode_unreached env um o hr⟩
  rw [GetAssetList_eq, GetAssetAddressList_eq, GetAssetInfo_eq, GetAssetSummary_eq,
    GetAssetTxs_eq]
  exact ⟨listed umL, listed umH, keyed umI, keyed umS, keyed umT⟩

/-- The hypothesis of the amended C12 holds for the response `404` with the body of an
error, as `request` leaves it on the stock client. -/
theorem C12_payload_and_error_witness :
    ListContract
      (GetAssetList exampleEnv listUnmarshal (answer notFoundOutcome))
      (succeeds (listUnmarshal : Unmarshal (Option (List AssetListItem))) none
        notFoundOutcome)
      (decoderReached notFoundOutcome)
      (decoded listUnmarshal none notFoundOutcome) ∧
    ListContract
      (GetAssetAddressList exampleEnv listUnmarshal
        (answer notFoundOutcome) "policy" "name")
      (succeeds (listUnmarshal : Unmarshal (Option (List AssetHolder))) none
        notFoundOutcome)
      (decoderReached notFoundOutcome)
      (decoded listUnmarshal none notFoundOutcome) ∧
    KeyedContract
      (GetAssetInfo exampleEnv listUnmarshal
        (answer notFoundOutcome) "policy" "name")
      (succeeds (listUnmarshal : Unmarshal (Option (List AssetInfo))) (some [])
        notFoundOutcome)
      (decoded listUnmarshal (some []) notFoundOutcome) ∧
    KeyedContract
      (GetAssetSummary exampleEnv listUnmarshal
        (answer notFoundOutcome) "policy" "name")
      (succeeds (listUnmarshal : Unmarshal (Option (List AssetSummary))) (some [])
        notFoundOutcome)
      (decoded listUnmarshal (some []) notFoundOutcome) ∧
    KeyedContract
      (GetAssetTxs exampleEnv listUnmarshal
        (answer notFoundOutcome) "policy" "name")
      (succeeds (listUnmarshal : Unmarshal (Option (List AssetTxs))) (some [])
        notFoundOutcome)
      (decoded listUnmarshal (some []) notFoundOutcome) :=
  C12_payload_and_error exampleEnv listUnmarshal listUnmarshal listUnmarshal listUnmarshal
    listUnmarshal notFoundOutcome "policy" "name" (by decide)

theorem listDecode_errorBody {α : Type} (env : Env) (um : Unmarshal (Option (List α)))
    (r1 : Response) (rsp : http.Response) (m : String)
    (hread : rsp.Body.err = none)
    (hjson : "json".data <:+: (rsp.Header.Get "Content-Type").data)
    (hstatus : rsp.StatusCode ≠ http.StatusOK)
    (hmsg : (env.unmarshalResponseError (some rsp.Body.data) {}).1.Message = m) (hne : m ≠ "")
    (hnil : (um (some rsp.Body.data) none).1 = none) :
    ErrorCarried (listDecode env um (r1, .ok rsp)) m r1.StatusCode := by
  have hrb := readResponseBody_json rsp hread hjson
  obtain ⟨data, e2, hd⟩ : ∃ data e2, um (some rsp.Body.data) none = (data, e2) := ⟨_, _, rfl⟩
  rw [hd] at hnil
  simp only at hnil
  subst hnil
  cases e2 with
  | some err =>
    simp only [ErrorCarried, listDecode, hrb, hd]
    exact ⟨trivial, applyError_message env r1 _ _ m hmsg hne, applyError_StatusCode _ _ _ _⟩
  | none =>
    simp only [ErrorCarried, listDecode, hrb, hd, hstatus, ne_eq, not_false_eq_true, if_true]
    exact ⟨trivial, applyError_message env r1 _ _ m hmsg hne, applyError_StatusCode _ _ _ _⟩

theorem byKeyDecode_errorBody {α : Type} (env : Env) (um : Unmarshal (Option (List α)))
    (r1 : Response) (rsp : http.Response) (m : String)
    (hread : rsp.Body.err = none)
    (hjson : "json".data <:+: (rsp.Header.Get "Content-Type").data)
    (hstatus : rsp.StatusCode ≠ http.StatusOK)
    (hmsg : (env.unmarshalResponseError (some rsp.Body.data) {}).1.Message = m) (hne : m ≠ "") :
    ErrorCarried (byKeyDecode env um (r1, .ok rsp)) m r1.StatusCode := by
  have hrb := readResponseBody_json rsp hread hjson
  obtain ⟨data, e2, hd⟩ : ∃ data e2, um (some rsp.Body.data) (some []) = (data, e2) :=
    ⟨_, _, rfl⟩
  cases e2 with
  | some err =>
    simp only [ErrorCarried, byKeyDecode, hrb, hd]
    exact ⟨trivial, applyError_message env r1 _ _ m hmsg hne, applyError_StatusCode _ _ _ _⟩
  | none =>
    simp only [ErrorCarried, byKeyDecode, hrb, hd, hstatus, ne_eq, not_false_eq_true, if_true]
    exact ⟨trivial, applyError_message env r1 _ _ m hmsg hne, applyError_StatusCode _ _ _ _⟩

theorem request_StatusCode (c : Client) (net : Exchange) (rsp : http.Response)
    (res : Response) (mth p : String) (b : Option String) (q : Option url.Values)
    (h : Option http.Header) (hnet : net.result = .ok rsp) :
    (c.request net res mth p b q h).1.StatusCode = rsp.StatusCode ∧
      (c.request net res mth p b q h).2 = .ok rsp := by
  simp [Client.request, hnet, Response.applyRsp]

/-- C13: for each wrapper, on a response of a status other than 200 with a JSON content
type whose body decodes, as a `ResponseError`, to a message `m` that is not empty, the
payload returned is nil, the `Error` of the envelope has the message `m`, and the status
code of the envelope is the one `request` recorded: `applyError` leaves the status code
alone, and the modelled `request` records that of the response.  For the two list wrappers
the decoder of the payload is taken to leave a nil slice nil on such a body, a JSON object,
as `json.Unmarshal` does. -/
theorem C13_error_body_message (env : Env)
    (umL : Unmarshal (Option (List AssetListItem))) (umH : Unmarshal (Option (List AssetHolder)))
    (umI : Unmarshal (Option (List AssetInfo))) (umS : Unmarshal (Option (List AssetSummary)))
    (umT : Unmarshal (Option (List AssetTxs)))
    (r1 : Response) (rsp : http.Response) (m : String) (policy : PolicyID) (name : AssetName)
    (hread : rsp.Body.err = none)
    (hjson : "json".data <:+: (rsp.Header.Get "Content-Type").data)
    (hstatus : rsp.StatusCode ≠ http.StatusOK)
    (hmsg : (env.unmarshalResponseError (some rsp.Body.data) {}).1.Message = m) (hne : m ≠ "")
    (hL : (umL (some rsp.Body.data) none).1 = none)
    (hH : (umH (some rsp.Body.data) none).1 = none) :
    (ErrorCarried (GetAssetList env umL (answer (r1, .ok rsp))) m r1.StatusCode ∧
      ErrorCarried (GetAssetAddressList env umH (answer (r1, .ok rsp)) policy name) m
        r1.StatusCode ∧
      ErrorCarried (GetAssetInfo env umI (answer (r1, .ok rsp)) policy name) m r1.StatusCode ∧
      ErrorCarried (GetAssetSummary env umS (answer (r1, .ok rsp)) policy name) m
        r1.StatusCode ∧
      ErrorCarried (GetAssetTxs env umT (answer (r1, .ok rsp)) policy name) m r1.StatusCode) ∧
    (∀ (r : Response) (body : Option String) (err : Option GoError),
      (r.applyError env body err).StatusCode = r.StatusCode) ∧
    (∀ (c : Client) (net : Exchange) (res : Response) (mth p : String) (b : Option String)
        (q : Option url.Values) (h : Option http.Header), net.result = .ok rsp →
      (c.request net res mth p b q h).1.StatusCode = rsp.StatusCode) := by
  refine ⟨?_, fun r body err => applyError_StatusCode env r body err,
    fun c net res mth p b q h hnet => (request_StatusCode c net rsp res mth p b q h hnet).1⟩
  rw [GetAssetList_eq, GetAssetAddressList_eq, GetAssetInfo_eq, GetAssetSummary_eq,
    GetAssetTxs_eq]
  exact ⟨listDecode_errorBody env umL r1 rsp m hread hjson hstatus hmsg hne hL,
    listDecode_errorBody env umH r1 rsp m hread hjson hstatus hmsg hne hH,
    byKeyDecode_errorBody env umI r1 rsp m hread hjson hstatus hmsg hne,
    byKeyDecode_errorBody env umS r1 rsp m hread hjson hstatus hmsg hne,
    byKeyDecode_errorBody env umT r1 rsp m hread hjson hstatus hmsg hne⟩

/-- The hypotheses of C13 hold for the response `404` with the body
`{"message":"not found"}`, the envelope as `request` leaves it on the stock client, and
decoders that refuse a JSON object for a list. -/
theorem C13_error_body_message_witness :
    ErrorCarried (GetAssetList exampleEnv listUnmarshal
        (answer (notFoundOutcome.1, .ok (jsonResponse 404 "404 Not Found" notFoundBody))))
      "not found" 404 ∧
    ErrorCarried (GetAssetAddressList exampleEnv listUnmarshal
        (answer (notFoundOutcome.1, .ok (jsonResponse 404 "404 Not Found" notFoundBody)))
        "policy" "name") "not found" 404 ∧
    ErrorCarried (GetAssetInfo exampleEnv listUnmarshal
        (answer (notFoundOutcome.1, .ok (jsonResponse 404 "404 Not Found" notFoundBody)))
        "policy" "name") "not found" 404 ∧
    ErrorCarried (GetAssetSummary exampleEnv listUnmarshal
        (answer (notFoundOutcome.1, .ok (jsonResponse 404 "404 Not Found" notFoundBody)))
        "policy" "name") "not found" 404 ∧
    ErrorCarried (GetAssetTxs exampleEnv listUnmarshal
        (answer (notFoundOutcome.1, .ok (jsonResponse 404 "404 Not Found" notFoundBody)))
        "policy" "name") "not found" 404 :=
  (C13_error_body_message exampleEnv listUnmarshal listUnmarshal listUnmarshal listUnmarshal
    listUnmarshal notFoundOutcome.1 (jsonResponse 404 "404 Not Found" notFoundBody)
    "not found" "policy" "name" rfl (by decide) (by decide) (by decide) (by decide)
    (by decide) (by decide)).1

theorem byKeyDecode_single {α : Type} (env : Env) (um : Unmarshal (Option (List α)))
    (r1 : Response) (rsp : http.Response) (items : Option (List α))
    (hread : rsp.Body.err = none)
    (hjson : "json".data <:+: (rsp.Header.Get "Content-Type").data)
    (hstatus : rsp.StatusCode = http.StatusOK) (hfresh : r1.Error = none)
    (hdec : um (some rsp.Body.data) (some []) = (items, none)) :
    SingleOrNil (byKeyDecode env um (r1, .ok rsp)) items := by
  have hrb := readResponseBody_json rsp hread hjson
  simp only [SingleOrNil, byKeyDecode, hrb, hdec, hstatus, ne_eq, not_true_eq_false, if_false,
    ready_Error, hfresh, and_true]
  constructor
  · intro item hitem
    subst hitem
    rfl
  · intro hlen
    rcases items with _ | (_ | ⟨a, _ | ⟨b, rest⟩⟩) <;> simp at hlen ⊢

/-- C14: for `GetAssetInfo`, `GetAssetSummary` and `GetAssetTxs`, on a response of status
200 with a JSON content type whose body decodes without error to a list (the envelope
coming from `request` without an error), the payload is the item when the list has one
item and nil when it has none or several, and both the `Error` of the envelope and the
error returned are nil. -/
theorem C14_by_key_single_item (env : Env)
    (umI : Unmarshal (Option (List AssetInfo))) (umS : Unmarshal (Option (List AssetSummary)))
    (umT : Unmarshal (Option (List AssetTxs)))
    (r1 : Response) (rsp : http.Response) (policy : PolicyID) (name : AssetName)
    (itemsI : Option (List AssetInfo)) (itemsS : Option (List AssetSummary))
    (itemsT : Option (List AssetTxs))
    (hread : rsp.Body.err = none)
    (hjson : "json".data <:+: (rsp.Header.Get "Content-Type").data)
    (hstatus : rsp.StatusCode = http.StatusOK) (hfresh : r1.Error = none)
    (hI : umI (some rsp.Body.data) (some []) = (itemsI, none))
    (hS : umS (some rsp.Body.data) (some []) = (itemsS, none))
    (hT : umT (some rsp.Body.data) (some []) = (itemsT, none)) :
    SingleOrNil (GetAssetInfo env umI (answer (r1, .ok rsp)) policy name) itemsI ∧
    SingleOrNil (GetAssetSummary env umS (answer (r1, .ok rsp)) policy name) itemsS ∧
    SingleOrNil (GetAssetTxs env umT (answer (r1, .ok rsp)) policy name) itemsT := by
  rw [GetAssetInfo_eq, GetAssetSummary_eq, GetAssetTxs_eq]
  exact ⟨byKeyDecode_single env umI r1 rsp itemsI hread hjson hstatus hfresh hI,
    byKeyDecode_single env umS r1 rsp itemsS hread hjson hstatus hfresh hS,
    byKeyDecode_single env umT r1 rsp itemsT hread hjson hstatus hfresh hT⟩

/-- The hypotheses of C14 hold for a response `200` whose body gives one `AssetInfo`, no
`AssetSummary` and nil for the `AssetTxs`. -/
theorem C14_by_key_single_item_witness :
    SingleOrNil (GetAssetInfo exampleEnv (singleUnmarshal { Name := "746f6b656e" })
        (answer ({}, .ok (jsonResponse 200 "200 OK" "[1]"))) "policy" "name")
      (some [{ Name := "746f6b656e" }]) ∧
    SingleOrNil (GetAssetSummary exampleEnv (fun _ _ => (some [], none))
        (answer ({}, .ok (jsonResponse 200 "200 OK" "[1]"))) "policy" "name") (some []) ∧
    SingleOrNil (GetAssetTxs exampleEnv (fun _ _ => (none, none))
        (answer ({}, .ok (jsonResponse 200 "200 OK" "[1]"))) "policy" "name") none :=
  C14_by_key_single_item exampleEnv (singleUnmarshal { Name := "746f6b656e" })
    (fun _ _ => (some [], none)) (fun _ _ => (none, none)) {}
    (jsonResponse 200 "200 OK" "[1]") "policy" "name" (some [{ Name := "746f6b656e" }])
    (some []) none rfl (by decide) (by decide) rfl rfl rfl rfl

/-- A list wrapper that leaves by the exit of success returns the envelope as `request`
left it: `ready` is not run. -/
theorem listDecode_success_untouched {α : Type} (env : Env)
    (um : Unmarshal (Option (List α))) (o : Outcome) (hs : succeeds um none o = true) :
    (listDecode env um o).1.toResponse = o.1 := by
  obtain ⟨r1, x⟩ := o
  cases x with
  | error err => simp [succeeds] at hs
  | ok rsp =>
    obtain ⟨body, e, hrb⟩ : ∃ body e, readResponseBody rsp = (body, e) := ⟨_, _, rfl⟩
    obtain ⟨data, e2, hd⟩ : ∃ data e2, um body none = (data, e2) := ⟨_, _, rfl⟩
    simp only [succeeds, hrb, hd, Bool.and_eq_true, Option.isNone_iff_eq_none,
      decide_eq_true_eq] at hs
    obtain ⟨⟨he, he2⟩, hstatus⟩ := hs
    subst he he2
    simp [listDecode, hrb, hd, hstatus]

/-- C15 fails on the code: `GetAssetList` and `GetAssetAddressList` return from their exit
of success without a call of `ready`.  With stats collected, a request started at `1000`
and the clock at `5000` on return, a response `200` with the body `[]` leaves the stats of
the envelope with `ReqDur = 0` and an empty `ReqDurStr`, not the `4000` ns gone by, which
`GetAssetInfo` records on the same response; and so it is for every success of
`GetAssetList`, which returns the envelope as `request` left it. -/
theorem C15_list_success_not_finalized :
    ((GetAssetList exampleEnv listUnmarshal okEmptyListTimed).2 = none ∧
      (GetAssetList exampleEnv listUnmarshal okEmptyListTimed).1.Stats =
        some { ReqStartedAt := 1000, ReqDur := 0, ReqDurStr := "" }) ∧
    ((GetAssetAddressList exampleEnv listUnmarshal okEmptyListTimed "policy" "name").2 = none ∧
      (GetAssetAddressList exampleEnv listUnmarshal okEmptyListTimed "policy" "name").1.Stats =
        some { ReqStartedAt := 1000, ReqDur := 0, ReqDurStr := "" }) ∧
    time.Sub exampleEnv.now 1000 = 4000 ∧
    (GetAssetInfo exampleEnv listUnmarshal okEmptyListTimed "policy" "name").1.Stats =
      some { ReqStartedAt := 1000, ReqDur := 4000, ReqDurStr := time.Duration.String 4000 } ∧
    (∀ (env : Env) (umL : Unmarshal (Option (List AssetListItem))) (o : Outcome),
      succeeds umL none o = true → (GetAssetList env umL (answer o)).1.toResponse = o.1) := by
  refine ⟨by decide, by decide, by decide, by decide, ?_⟩
  intro env umL o hs
  rw [GetAssetList_eq]
  exact listDecode_success_untouched env umL o hs

theorem handleErr_ok (r : Option GoError × Client) (c : Client)
    (h : cli.handleErr r = .ok c) : r = (none, c) := by
  obtain ⟨e, c1⟩ := r
  cases e with
  | some err => simp [cli.handleErr] at h
  | none =>
    simp only [cli.handleErr, Except.ok.injEq] at h
    rw [h]

/-- With the flags at their defaults but `rate-limit` at `300`, `Before` goes through on
the stock client and leaves the interval of a rate of `44`. -/
theorem before_rate_300 :
    cli.Before { cli.globalFlags with rateLimit := 300 } stockClient =
      .ok { stockClient with reqInterval := 22727272 } := by
  have h1 : Host MainnetHost stockClient = (none, stockClient) := by decide
  have h2 : APIVersion DefaultAPIVersion stockClient = (none, stockClient) := by decide
  have h3 : Port (cli.uint16 DefaultPort) stockClient = (none, stockClient) := by decide
  have h4 : Schema DefaultSchema stockClient = (none, stockClient) := by decide
  have h5 : RateLimit (cli.uint8 300) stockClient =
      (none, { stockClient with reqInterval := 22727272 }) := by decide
  have h6 : Origin DefaultOrigin { stockClient with reqInterval := 22727272 } =
      (none, { stockClient with reqInterval := 22727272 }) := by
    rw [origin_default]; rfl
  simp only [cli.Before, cli.globalFlags, h1, h2, h3, h4, h5, h6, cli.handleErr, bind,
    Except.bind]

/-- C16: in the command line the value `v` of the flag `rate-limit`, a `uint`, reaches
`RateLimit` as `uint8(v)`, that is `v mod 256`: the setter returns `ErrRateLimitRange`
exactly when `v mod 256 = 0`, and otherwise returns no error and sets the interval to one
second divided by `v mod 256`; a run of `Before` that ends without error has set that
interval.  So `v = 300`, outside `1..255`, is accepted and applied as `44`. -/
theorem C16_cli_rate_limit_narrowed (v : Nat) (c : Client) :
    cli.uint8 v = v % 256 ∧
    ((RateLimit (cli.uint8 v) c).1 = some ErrRateLimitRange ↔ v % 256 = 0) ∧
    ((RateLimit (cli.uint8 v) c).1 = none ↔ v % 256 ≠ 0) ∧
    (v % 256 ≠ 0 →
      (RateLimit (cli.uint8 v) c).2.reqInterval = ((1000000000 / (v % 256) : Nat) : Int)) ∧
    (∀ (flags : cli.Flags) (api c1 : Client), flags.rateLimit = v →
      cli.Before flags api = .ok c1 →
        v % 256 ≠ 0 ∧ c1.reqInterval = ((1000000000 / (v % 256) : Nat) : Int)) ∧
    (¬ (1 ≤ 300 ∧ 300 ≤ 255) ∧ cli.uint8 300 = 44 ∧
      cli.Before { cli.globalFlags with rateLimit := 300 } stockClient =
        .ok { stockClient with reqInterval := 22727272 } ∧
      ((1000000000 / 44 : Nat) : Int) = 22727272) := by
  have hu : cli.uint8 v = v % 256 := rfl
  have hlt : v % 256 < 256 := Nat.mod_lt _ (by decide)
  have hset : v % 256 ≠ 0 →
      RateLimit (v % 256) c =
        (none, { c with reqInterval := ((1000000000 / (v % 256) : Nat) : Int) }) := by
    intro h0
    have hdiv := tdiv_second_pos (v % 256) (by omega) (by omega)
    simp only [RateLimit, h0, if_false, hdiv.2]
  refine ⟨hu, ?_, ?_, ?_, ?_, by decide, rfl, before_rate_300, by decide⟩
  · rw [hu]
    by_cases h0 : v % 256 = 0
    · simp [RateLimit, h0]
    · simp [hset h0, h0]
  · rw [hu]
    by_cases h0 : v % 256 = 0
    · simp [RateLimit, h0]
    · simp [hset h0, h0]
  · intro h0
    rw [hu, hset h0]
  · intro flags api c1 hv hb
    subst hv
    simp only [cli.Before, bind, Except.bind] at hb
    split at hb
    · simp at hb
    · split at hb
      · simp at hb
      · split at hb
        · simp at hb
        · split at hb
          · simp at hb
          · split at hb
            · simp at hb
            · rename_i api4 _ api5 h5
              have h5r := handleErr_ok _ _ h5
              have h6 := handleErr_ok _ _ hb
              have hrate : flags.rateLimit % 256 ≠ 0 := by
                intro h0
                rw [hu] at h5r
                simp [RateLimit, h0] at h5r
              refine ⟨hrate, ?_⟩
              have h1 : c1.reqInterval = api5.reqInterval := by
                have := origin_reqInterval flags.origin api5
                rw [h6] at this
                exact this
              rw [h1]
              rw [hu, (fun c => by
                have hdiv := tdiv_second_pos (flags.rateLimit % 256) (by omega) (by omega)
                simp only [RateLimit, hrate, if_false, hdiv.2] :
                ∀ c : Client, RateLimit (flags.rateLimit % 256) c =
                  (none, { c with
                    reqInterval := ((1000000000 / (flags.rateLimit % 256) : Nat) : Int) }))]
                at h5r
              simp only [Prod.mk.injEq, true_and] at h5r
              rw [← h5r]

end Koios
